import Mathlib

/-!
Verification of the AutoRfp.ai proposal pipeline.

This file gives a shallow embedding, in Lean 4, of the parts of the
AutoRfp.ai backend that the design document makes claims about:

* the award / reject state machine (src/backend/src/services/proposalService.js),
* the reconciliation ("parse proposals") transaction of the same file,
* the AI-output normalizer (src/backend/src/utils/groqClient.js),
* the reply-address router (src/utils/emailRouting.js),
* the bounded-concurrency runner (src/utils/emailSendingUtils.js),
* the invitation-send loop (src/services/emailService.js),
* the inbound IMAP poll cycle (src/workers/imapWorker.js).

JavaScript strings are modelled as Lean String / List Char, JS numbers as
Int (no claim below depends on fractional values), nullable values as
Option, and rows of the datastore as Lean structures mirroring the
Sequelize model definitions.  Datastore collections are lists of rows;
a Sequelize findOne is List.find?, a Map built from a query result keeps
the last entry per key, modelled by searching the reversed list.
Transactions are modelled by applying all writes to a working copy and
publishing it only at the commit point; an injected fault makes the
operation return the original (rolled back) state.
-/

namespace AutoRfp

/-- JS truthiness of an optional number: 0 and null are falsy.
Models the ubiquitous pattern "x || null" on numeric fields. -/
def jsNumOrNull (v : Option Int) : Option Int :=
  match v with
  | none => none
  | some n => if n = 0 then none else some n

/-- JS truthiness of an optional string: "" and null are falsy.
Models "x || null" on text fields. -/
def jsStrOrNull (v : Option String) : Option String :=
  match v with
  | none => none
  | some s => if s = "" then none else some s

/-- JS "a || b" on strings: a if truthy (non-empty), else b. -/
def jsStrOr (a b : String) : String :=
  if a = "" then b else a

/-- Truthiness of an optional string (used for guards like "vendor.email &&"). -/
def jsStrTruthy (v : Option String) : Bool :=
  match v with
  | none => false
  | some s => s ≠ ""

/-- Lookup in a JS Map that was built from a query-result list keyed by
some attribute: for duplicate keys the LAST list entry wins. -/
def lookupLast (p : α → Bool) (l : List α) : Option α :=
  l.reverse.find? p

-- ---------------------------------------------------------------------------
-- Data model (src/backend/src/models + src/unnamed/part_000)
-- ---------------------------------------------------------------------------

/-- One normalized proposal line item (output of normalizeProposalOutput). -/
structure ParsedItem where
  label : Option String
  spec : Option String
  quantity : Option Int
  unit_price : Option Int
  total_price : Option Int
  matches_rfp : Option Bool
  notes : Option String
deriving Repr, DecidableEq

/-- A normalized proposal payload (output of normalizeProposalOutput in
groqClient.js): every field already coerced, items filtered by label. -/
structure ParsedProposal where
  total_price : Option Int
  currency_code : String
  delivery_text : Option String
  delivery_days : Option Int
  warranty_text : Option String
  warranty_months : Option Int
  payment_terms : Option String
  items_match : Option Bool
  ai_score : Option Int
  ai_reasoning : String
  items : List ParsedItem
deriving Repr, DecidableEq

/-- An RFP row (models/rfp.js): only the attributes the pipeline touches. -/
structure Rfp where
  id : Nat
  status : String
  currency_code : String := "USD"
deriving Repr, DecidableEq

/-- A vendor row (models/vendor.js): only the attributes the pipeline touches. -/
structure Vendor where
  id : Nat
  name : String := ""
  email : Option String := none
  rating : Option Int := none
deriving Repr, DecidableEq

/-- A proposal row (src/unnamed/part_000, table "proposals"). -/
structure Proposal where
  id : Nat
  rfp_id : Nat
  vendor_id : Nat
  email_id : Option Nat := none
  version : Nat := 1
  total_price : Option Int := none
  currency_code : String := "USD"
  delivery_text : Option String := none
  delivery_days : Option Int := none
  warranty_text : Option String := none
  warranty_months : Option Int := none
  payment_terms : Option String := none
  items_match : Option Bool := none
  ai_score : Option Int := none
  ai_reasoning : Option String := none
  status : String := "pending"
  ai_parsed : Option ParsedProposal := none
deriving Repr, DecidableEq

/-- A proposal line-item row (models/proposalItem.js). -/
structure ProposalItem where
  proposal_id : Nat
  item_label : Option String
  spec_text : Option String
  quantity : Option Int
  unit_price : Option Int
  total_price : Option Int
  matches_rfp : Option Bool
  notes : Option String
deriving Repr, DecidableEq

/-- An email row (src/unnamed/part_000, table "emails"). -/
structure EmailRow where
  id : Nat := 0
  rfp_id : Option Nat := none
  vendor_id : Option Nat := none
  direction : String
  subject : Option String := none
  body_text : Option String := none
  message_id : Option String := none
  received_at : Option Nat := none
deriving Repr, DecidableEq

/-- An RFP-vendor invitation mapping row (models/rfpVendor.js). -/
structure RfpVendorRow where
  id : Nat
  rfp_id : Nat
  vendor_id : Nat
  invite_status : String := "pending"
  reply_token : Option String := none
  last_email_id : Option Nat := none
deriving Repr, DecidableEq

-- ---------------------------------------------------------------------------
-- Award / Reject state machine (proposalService.js)
-- ---------------------------------------------------------------------------

/-- The slice of the datastore touched by awardProposalService and
rejectProposalService. -/
structure AwardState where
  rfps : List Rfp
  proposals : List Proposal
deriving Repr, DecidableEq

/-- Result value of awardProposalService: the explicit error returns of the
source, the success payload, or a thrown-and-rolled-back datastore failure. -/
inductive AwardOutcome where
  | rfpNotFound
  | rfpAlreadyClosed
  | proposalNotFound
  | alreadyAwarded
  | success (awarded_proposal_id : Nat)
  | dbFailure
deriving Repr, DecidableEq

/-- Shallow embedding of awardProposalService (proposalService.js lines
314-445).  The datastore operations inside the transaction are numbered in
source order; fault k = true means the k-th operation throws, in which case
the transaction rolls back and the original state is returned unchanged
(the source catches, calls t.rollback() and rethrows).  Writes are applied
to a working copy and only published at the commit point, so a fault at any
operation leaves the pre-call state observable.
Operations: 0 = Rfps.findOne, 1 = Proposals.findOne (target),
2 = Vendors.findOne, 3 = Proposals.findAll (siblings), 4 = update target,
5 = bulk update siblings, 6 = update rfp, 7 = commit. -/
def awardProposalService (fault : Nat → Bool) (st : AwardState)
    (rfp_id vendor_id : Nat) : AwardOutcome × AwardState :=
  if fault 0 then (.dbFailure, st) else
  match st.rfps.find? (fun r => r.id == rfp_id) with
  | none => (.rfpNotFound, st)
  | some rfp =>
    if rfp.status == "closed" then (.rfpAlreadyClosed, st) else
    if fault 1 then (.dbFailure, st) else
    match st.proposals.find? (fun p => p.rfp_id == rfp_id && p.vendor_id == vendor_id) with
    | none => (.proposalNotFound, st)
    | some targetProposal =>
      if targetProposal.status == "awarded" then (.alreadyAwarded, st) else
      if fault 2 then (.dbFailure, st) else
      if fault 3 then (.dbFailure, st) else
      let rejectedProposalIds :=
        (st.proposals.filter (fun p =>
          p.rfp_id == rfp_id && p.vendor_id != vendor_id && p.status != "rejected")).map
          (fun p => p.id)
      if fault 4 then (.dbFailure, st) else
      let ps1 := st.proposals.map (fun p =>
        if p.id == targetProposal.id then { p with status := "awarded" } else p)
      if fault 5 then (.dbFailure, st) else
      let ps2 := ps1.map (fun p =>
        if rejectedProposalIds.contains p.id then { p with status := "rejected" } else p)
      if fault 6 then (.dbFailure, st) else
      let rfps1 := st.rfps.map (fun r =>
        if r.id == rfp_id then { r with status := "closed" } else r)
      if fault 7 then (.dbFailure, st) else
      (.success targetProposal.id, { rfps := rfps1, proposals := ps2 })

/-- A concrete sample datastore state (one open RFP, a pending target
proposal, a pending sibling and an already-rejected sibling) used to
instantiate the award theorem below. -/
def awardSampleState : AwardState :=
  { rfps := [{ id := 1, status := "evaluating" }],
    proposals :=
      [{ id := 1, rfp_id := 1, vendor_id := 1, status := "pending" },
       { id := 2, rfp_id := 1, vendor_id := 2, status := "pending" },
       { id := 3, rfp_id := 1, vendor_id := 3, status := "rejected" }] }

/-- Result of rejectProposalService: reported error or success, the state
after the call, and whether the two post-return effects (vendor-rating
recompute, rejection email) were dispatched via setImmediate. -/
structure RejectOutcome where
  error : Option String
  state : AwardState
  ratingDispatched : Bool
  emailDispatched : Bool
deriving Repr, DecidableEq

/-- Shallow embedding of rejectProposalService (proposalService.js lines
452-516).  Not transactional in the source; the guard on an awarded
proposal returns before any write and before either setImmediate. -/
def rejectProposalService (vendors : List Vendor) (st : AwardState)
    (rfp_id vendor_id : Nat) : RejectOutcome :=
  match st.proposals.find? (fun p => p.rfp_id == rfp_id && p.vendor_id == vendor_id) with
  | none =>
    ⟨some "Proposal not found for given RFP and vendor", st, false, false⟩
  | some proposal =>
    if proposal.status == "awarded" then
      ⟨some "Cannot reject an already awarded proposal", st, false, false⟩
    else
      let vendor := vendors.find? (fun v => v.id == vendor_id)
      let rfp := st.rfps.find? (fun r => r.id == rfp_id)
      let ps1 := st.proposals.map (fun p =>
        if p.id == proposal.id then { p with status := "rejected" } else p)
      ⟨none, { st with proposals := ps1 }, true,
        (match vendor with
         | some v => jsStrTruthy v.email && rfp.isSome
         | none => false)⟩

-- ---------------------------------------------------------------------------
-- AI output normalizer (groqClient.js)
-- ---------------------------------------------------------------------------

/-- A raw proposal line item as it appears in the parsed completion-service
JSON.  Numeric fields are modelled as already-numeric-or-null: the string
branch of coerceNumberOrNull collapses to the numeric value it parses to,
and Math.round on our integer model is the identity. -/
structure RawItem where
  label : Option String := none
  spec : Option String := none
  quantity : Option Int := none
  unit_price : Option Int := none
  total_price : Option Int := none
  matches_rfp : Option Bool := none
  notes : Option String := none
deriving Repr, DecidableEq

/-- A raw proposal payload as parsed from the completion-service response. -/
structure RawProposal where
  total_price : Option Int := none
  currency_code : Option String := none
  delivery_text : Option String := none
  delivery_days : Option Int := none
  warranty_text : Option String := none
  warranty_months : Option Int := none
  payment_terms : Option String := none
  items_match : Option Bool := none
  ai_score : Option Int := none
  ai_reasoning : Option String := none
  items : List RawItem := []
deriving Repr, DecidableEq

/-- normalizeCurrencyCode (groqClient.js): 3 uppercase letters after
trim/upcase, else "USD". -/
def normalizeCurrencyCode (c : Option String) : String :=
  match c with
  | none => "USD"
  | some s =>
    if s = "" then "USD"
    else
      let u := s.trim.toUpper
      if u.length = 3 && u.data.all Char.isUpper then u else "USD"

/-- clampScore (groqClient.js): clamp to [0, 100], null stays null. -/
def clampScore (s : Option Int) : Option Int :=
  s.map (fun n => min 100 (max 0 n))

/-- One item of normalizeProposalOutput's items.map. -/
def normalizeItem (i : RawItem) : ParsedItem :=
  { label := jsStrOrNull i.label
    spec := jsStrOrNull i.spec
    quantity := some (match jsNumOrNull i.quantity with | none => 1 | some n => n)
    unit_price := i.unit_price
    total_price := i.total_price
    matches_rfp := some (match i.matches_rfp with | some b => b | none => true)
    notes := jsStrOrNull i.notes }

/-- Shallow embedding of normalizeProposalOutput (groqClient.js lines
147-179).  Note: unlike normalizeRfpAnalysisOutput, this function does NOT
throw when the filtered item list is empty; it returns a payload with
items = []. -/
def normalizeProposalOutput (raw : RawProposal) : ParsedProposal :=
  let normalizedItems :=
    (raw.items.map normalizeItem).filter (fun i => jsStrTruthy i.label)
  { total_price := raw.total_price
    currency_code := normalizeCurrencyCode raw.currency_code
    delivery_text := jsStrOrNull raw.delivery_text
    delivery_days := raw.delivery_days
    warranty_text := jsStrOrNull raw.warranty_text
    warranty_months := raw.warranty_months
    payment_terms := jsStrOrNull raw.payment_terms
    items_match :=
      (match raw.items_match with
       | some b => some b
       | none =>
         if normalizedItems.isEmpty then none
         else some (normalizedItems.all (fun i => i.matches_rfp == some true)))
    ai_score := clampScore raw.ai_score
    ai_reasoning := raw.ai_reasoning.getD ""
    items := normalizedItems }

-- ---------------------------------------------------------------------------
-- Reconciliation engine (parseProposalsService, proposalService.js)
-- ---------------------------------------------------------------------------

/-- The slice of the datastore touched by the reconciliation transaction. -/
structure ReconState where
  rfps : List Rfp
  proposals : List Proposal
  proposalItems : List ProposalItem
  nextProposalId : Nat
deriving Repr, DecidableEq

/-- The baseFields object built per vendor in the step-6 loop of
parseProposalsService (lines 156-170): every field a truthiness-or-null
coercion of the parsed payload.  Note there is no version and no status. -/
structure BaseFields where
  email_id : Option Nat
  total_price : Option Int
  currency_code : String
  delivery_text : Option String
  delivery_days : Option Int
  warranty_text : Option String
  warranty_months : Option Int
  payment_terms : Option String
  items_match : Option Bool
  ai_score : Option Int
  ai_reasoning : Option String
  ai_parsed : Option ParsedProposal
deriving Repr, DecidableEq

/-- baseFields construction (proposalService.js lines 156-170). -/
def mkBaseFields (rfp : Rfp) (emailId : Nat) (parsed : ParsedProposal) : BaseFields :=
  { email_id := some emailId
    total_price := jsNumOrNull parsed.total_price
    currency_code := jsStrOr parsed.currency_code (jsStrOr rfp.currency_code "USD")
    delivery_text := jsStrOrNull parsed.delivery_text
    delivery_days := jsNumOrNull parsed.delivery_days
    warranty_text := jsStrOrNull parsed.warranty_text
    warranty_months := jsNumOrNull parsed.warranty_months
    payment_terms := jsStrOrNull parsed.payment_terms
    items_match := parsed.items_match
    ai_score := jsNumOrNull parsed.ai_score
    ai_reasoning := jsStrOrNull (some parsed.ai_reasoning)
    ai_parsed := some parsed }

/-- proposal.update(baseFields): merge the given fields into the row,
leaving id, rfp_id, vendor_id, version and status untouched. -/
def applyBaseFields (p : Proposal) (bf : BaseFields) : Proposal :=
  { p with
    email_id := bf.email_id
    total_price := bf.total_price
    currency_code := bf.currency_code
    delivery_text := bf.delivery_text
    delivery_days := bf.delivery_days
    warranty_text := bf.warranty_text
    warranty_months := bf.warranty_months
    payment_terms := bf.payment_terms
    items_match := bf.items_match
    ai_score := bf.ai_score
    ai_reasoning := bf.ai_reasoning
    ai_parsed := bf.ai_parsed }

/-- Proposals.create({ rfp_id, vendor_id, version: 1, status: "pending",
...baseFields }). -/
def newProposalRow (id rfp_id vendor_id : Nat) (bf : BaseFields) : Proposal :=
  { id := id
    rfp_id := rfp_id
    vendor_id := vendor_id
    version := 1
    status := "pending"
    email_id := bf.email_id
    total_price := bf.total_price
    currency_code := bf.currency_code
    delivery_text := bf.delivery_text
    delivery_days := bf.delivery_days
    warranty_text := bf.warranty_text
    warranty_months := bf.warranty_months
    payment_terms := bf.payment_terms
    items_match := bf.items_match
    ai_score := bf.ai_score
    ai_reasoning := bf.ai_reasoning
    ai_parsed := bf.ai_parsed }

/-- The items.map of the step-6 loop (identical in the update and create
branches). -/
def itemRows (proposalId : Nat) (items : List ParsedItem) : List ProposalItem :=
  items.map (fun item =>
    { proposal_id := proposalId
      item_label := jsStrOrNull item.label
      spec_text := jsStrOrNull item.spec
      quantity := jsNumOrNull item.quantity
      unit_price := jsNumOrNull item.unit_price
      total_price := jsNumOrNull item.total_price
      matches_rfp := item.matches_rfp
      notes := jsStrOrNull item.notes })

/-- One entry of parsedByVendorId: a vendor with its best inbound email and
the successfully parsed payload. -/
structure ParsedEntry where
  vendor_id : Nat
  email_id : Nat
  parsed : ParsedProposal
deriving Repr, DecidableEq

/-- One iteration of the step-6 loop of parseProposalsService: look the
vendor up in proposalByVendorId (a Map over the pre-loop query result
`existing`, last entry per vendor winning), then either update-in-place and
replace items, or create a fresh proposal at version 1 / status pending. -/
def reconcileVendor (rfp : Rfp) (existing : List Proposal) (st : ReconState)
    (e : ParsedEntry) : ReconState :=
  let bf := mkBaseFields rfp e.email_id e.parsed
  match lookupLast (fun p => p.rfp_id == rfp.id && p.vendor_id == e.vendor_id) existing with
  | some proposal =>
    let ps1 := st.proposals.map (fun p =>
      if p.id == proposal.id then applyBaseFields p bf else p)
    let items1 := st.proposalItems.filter (fun it => it.proposal_id != proposal.id)
    let items2 :=
      if e.parsed.items.isEmpty then items1
      else items1 ++ itemRows proposal.id e.parsed.items
    { st with proposals := ps1, proposalItems := items2 }
  | none =>
    let newId := st.nextProposalId
    let row := newProposalRow newId rfp.id e.vendor_id bf
    let items2 :=
      if e.parsed.items.isEmpty then st.proposalItems
      else st.proposalItems ++ itemRows newId e.parsed.items
    { st with
      proposals := st.proposals ++ [row]
      proposalItems := items2
      nextProposalId := newId + 1 }

/-- The step-6 transaction of parseProposalsService (lines 132-253): run the
loop over all parsed vendors against the snapshot of existing proposals,
then advance the RFP to "evaluating" when at least one proposal was created
or updated and the RFP is not closed. -/
def parseProposalsTxn (rfp : Rfp) (entries : List ParsedEntry)
    (st : ReconState) : ReconState :=
  let existing := st.proposals
  let st1 := entries.foldl (reconcileVendor rfp existing) st
  if !entries.isEmpty && rfp.status != "closed" then
    { st1 with rfps := st1.rfps.map (fun r =>
        if r.id == rfp.id then { r with status := "evaluating" } else r) }
  else st1

/-- A (best email, vendor) pair handed to the extraction stage (step 5). -/
structure EmailVendorPair where
  email_id : Nat
  vendor_id : Nat
deriving Repr, DecidableEq

/-- Step 5 of parseProposalsService (lines 103-126): call the completion
service per pair under the concurrency runner.  A throwing call is caught
and the vendor skipped; a successful call ALWAYS enters parsedByVendorId
(`if (parsed)` is true for every object normalizeProposalOutput returns,
zero items included).  The outcome function models parseProposalWithGroq
per vendor. -/
def extractProposals (outcome : Nat → Except String ParsedProposal)
    (pairs : List EmailVendorPair) : List ParsedEntry :=
  pairs.filterMap (fun pr =>
    match outcome pr.vendor_id with
    | .ok parsed => some ⟨pr.vendor_id, pr.email_id, parsed⟩
    | .error _ => none)

/-- Steps 5-6 of parseProposalsService: extraction, the no-payload guard,
then the write transaction.  Returns the reported error (if any) and the
state after the call. -/
def parseProposalsService (outcome : Nat → Except String ParsedProposal)
    (rfp : Rfp) (pairs : List EmailVendorPair) (st : ReconState) :
    Option String × ReconState :=
  let entries := extractProposals outcome pairs
  if entries.isEmpty then
    (some "No proposals could be parsed from inbound emails", st)
  else
    (none, parseProposalsTxn rfp entries st)

-- ---------------------------------------------------------------------------
-- Reply-address router (src/utils/emailRouting.js)
-- ---------------------------------------------------------------------------

/-- The token alphabet /[a-zA-Z0-9]/ of generateReplyToken. -/
def isAllowedTokenChar (c : Char) : Bool :=
  c.isAlpha || c.isDigit

/-- Loop body of generateReplyToken: draw printable-ASCII characters
(code 33 + x % 94) from an entropy stream, keep the alphanumeric ones,
stop once the requested length is reached.  A too-short entropy stream
yields none (the source would keep drawing). -/
def generateReplyTokenAux (len : Nat) : List Nat → List Char → Option (List Char)
  | [], acc => if len ≤ acc.length then some acc else none
  | e :: rest, acc =>
    if len ≤ acc.length then some acc
    else if isAllowedTokenChar (Char.ofNat (e % 94 + 33))
    then generateReplyTokenAux len rest (acc ++ [Char.ofNat (e % 94 + 33)])
    else generateReplyTokenAux len rest acc

/-- generateReplyToken (emailRouting.js lines 419-431), default length 12. -/
def generateReplyToken (entropy : List Nat) (len : Nat := 12) : Option (List Char) :=
  generateReplyTokenAux len entropy []

/-- JS String.split(sep) for a one-character separator, over char lists. -/
def splitOnChar (sep : Char) : List Char → List (List Char)
  | [] => [[]]
  | c :: rest =>
    if c = sep then [] :: splitOnChar sep rest
    else
      match splitOnChar sep rest with
      | h :: t => (c :: h) :: t
      | [] => [[c]]

/-- The sub-address marker inserted by buildRfpReplyTo. -/
def rfpMarker : List Char := ['+', 'r', 'f', 'p', '_']

/-- Does the list start with the marker "+rfp_", the letters matched
case-insensitively (the /i flag of the decode regex)? -/
def markerHere (l : List Char) : Bool :=
  match l with
  | a :: b :: c :: d :: e :: _ =>
    a == '+' && b.toLower == 'r' && c.toLower == 'f' && d.toLower == 'p' && e == '_'
  | _ => false

/-- The scan of the regex /\+rfp_([^@]+)@/i: at each position, if the
marker matches here and a non-empty run of non-@ characters followed by an
@ comes next, capture the run; otherwise move one position right. -/
def findTokenMatch : List Char → Option (List Char)
  | [] => none
  | c :: rest =>
    if markerHere (c :: rest) then
      if ((rest.drop 4).takeWhile (fun ch => ch != '@')).isEmpty
      then findTokenMatch rest
      else if ((rest.drop 4).drop
          ((rest.drop 4).takeWhile (fun ch => ch != '@')).length).isEmpty
      then findTokenMatch rest
      else some ((rest.drop 4).takeWhile (fun ch => ch != '@'))
    else findTokenMatch rest

/-- parseRfpPlusAddress (emailRouting.js lines 455-467): empty address is
falsy; otherwise run the regex and return the captured token (case
preserved), or none. -/
def parseRfpPlusAddress (address : List Char) : Option (List Char) :=
  if address.isEmpty then none else findTokenMatch address

/-- buildRfpReplyTo (emailRouting.js lines 437-447): split the base address
at "@", fail on a falsy base, token, local part or domain, otherwise insert
"+rfp_TOKEN" between local part and domain. -/
def buildRfpReplyTo (baseEmail replyToken : List Char) : Option (List Char) :=
  if baseEmail.isEmpty then none
  else if replyToken.isEmpty then none
  else
    match splitOnChar '@' baseEmail with
    | localPart :: domain :: _ =>
      if localPart.isEmpty then none
      else if domain.isEmpty then none
      else some (localPart ++ rfpMarker ++ replyToken ++ '@' :: domain)
    | _ => none

/-- Does the marker "+rfp_" occur (case-insensitively) anywhere in the list? -/
def containsMarker : List Char → Bool
  | [] => false
  | c :: rest => markerHere (c :: rest) || containsMarker rest

-- ---------------------------------------------------------------------------
-- Bounded-concurrency runner (processConcurrency, emailSendingUtils.js)
-- ---------------------------------------------------------------------------

/-- Shared state of the processConcurrency worker pool: the shared index
counter, the two result counters, and one liveness flag per worker. -/
structure RunnerState where
  index : Nat
  completed : Nat
  failed : Nat
  active : List Bool
deriving Repr, DecidableEq

/-- One worker turn at the single await point of the worker loop: the
chosen worker atomically draws `current = index++` (JS is single-threaded
between awaits); a draw past the end terminates the worker, otherwise the
handler runs on the drawn item and exactly one counter is bumped - a
throwing handler is caught, increments failed, and the worker continues. -/
def runnerStep (handler : α → Bool) (items : List α) (s : RunnerState)
    (k : Nat) : RunnerState :=
  match s.active[k]? with
  | some true =>
    let current := s.index
    let s1 := { s with index := current + 1 }
    if items.length ≤ current then
      { s1 with active := s.active.set k false }
    else
      match items[current]? with
      | some item =>
        if handler item then { s1 with completed := s.completed + 1 }
        else { s1 with failed := s.failed + 1 }
      | none => s1
  | _ => s

/-- Run the pool under an explicit interleaving: the schedule lists which
worker takes each successive turn. -/
def runnerRun (handler : α → Bool) (items : List α) (s : RunnerState)
    (schedule : List Nat) : RunnerState :=
  schedule.foldl (runnerStep handler items) s

/-- processConcurrency (emailSendingUtils.js lines 291-335) under a given
interleaving: spawn min(concurrency, items.length) workers, drive them by
the schedule, and once every worker has drained (Promise.all resolved)
report { completed, failed, total }.  A schedule too short to finish the
pool yields none (the call has not returned yet). -/
def processConcurrency (items : List α) (concurrency : Nat) (handler : α → Bool)
    (schedule : List Nat) : Option (Nat × Nat × Nat) :=
  let workerCount := min concurrency items.length
  let final := runnerRun handler items
    ⟨0, 0, 0, List.replicate workerCount true⟩ schedule
  if final.active.all (fun b => b == false) then
    some (final.completed, final.failed, items.length)
  else none

/-- Invariant of the runner pool: the worker list keeps its size, the two
counters always count the successes and failures among the first `index`
items, and as soon as one worker has terminated the shared index has passed
the end of the queue. -/
def runnerInv (handler : α → Bool) (items : List α) (w : Nat)
    (s : RunnerState) : Prop :=
  s.active.length = w ∧
  s.completed = (items.take s.index).countP handler ∧
  s.failed = (items.take s.index).countP (fun x => !(handler x)) ∧
  (false ∈ s.active → items.length ≤ s.index)

-- ---------------------------------------------------------------------------
-- Invitation-send loop (sendRfpService, emailService.js)
-- ---------------------------------------------------------------------------

/-- An entry of the emailsToSend queue (only the attributes the claims
need: who the message is for and which mapping it belongs to). -/
structure QueuedEmail where
  vendor_id : Nat
  mapping_id : Nat
deriving Repr, DecidableEq

/-- The state threaded through the per-vendor loop of sendRfpService. -/
structure InviteState where
  mappings : List RfpVendorRow
  emailsQueued : List QueuedEmail
  invitedCount : Nat
  nextMappingId : Nat
deriving Repr, DecidableEq

/-- FIX #4 guard of sendRfpService: vendor.email must be a non-empty string
containing "@". -/
def vendorEmailValid (v : Vendor) : Bool :=
  match v.email with
  | none => false
  | some s => s ≠ "" && s.data.any (fun c => c == '@')

/-- One iteration of the vendor loop of sendRfpService (emailService.js
lines 873-956).  `existing` is the pre-loop RfpVendors query result that
mappingByVendorId was built from (last row per vendor wins).  A mapping
whose invite_status is already "sent" is skipped before any write, any
token generation and any queueing (FIX #2).  Otherwise the mapping gets a
reply token if it has none, the email is queued, and the mapping is saved
back as pending with a cleared last_email_id.  `tokenOf` models the
generateReplyToken() draw made for that vendor. -/
def inviteVendorStep (rid : Nat) (tokenOf : Nat → String)
    (existing : List RfpVendorRow) (st : InviteState) (v : Vendor) : InviteState :=
  if !vendorEmailValid v then st
  else
    match lookupLast (fun m => m.rfp_id == rid && m.vendor_id == v.id) existing with
    | none =>
      let mapping0 : RfpVendorRow :=
        { id := st.nextMappingId, rfp_id := rid, vendor_id := v.id
          invite_status := "pending", reply_token := none, last_email_id := none }
      let mapping1 := { mapping0 with reply_token := some (tokenOf v.id) }
      let mapping2 := { mapping1 with invite_status := "pending", last_email_id := none }
      { mappings := st.mappings ++ [mapping2]
        emailsQueued := st.emailsQueued ++ [⟨v.id, mapping0.id⟩]
        invitedCount := st.invitedCount + 1
        nextMappingId := st.nextMappingId + 1 }
    | some m =>
      if m.invite_status == "sent" then st
      else
        let m1 := if m.reply_token.isNone
                  then { m with reply_token := some (tokenOf v.id) } else m
        let m2 := { m1 with invite_status := "pending", last_email_id := none }
        { st with
          mappings := st.mappings.map (fun x => if x.id == m.id then m2 else x)
          emailsQueued := st.emailsQueued ++ [⟨v.id, m.id⟩]
          invitedCount := st.invitedCount + 1 }

/-- The whole vendor loop of sendRfpService, iterated over the vendors the
Vendors.findAll returned, against the pre-loop mapping snapshot. -/
def sendRfpInvites (rid : Nat) (tokenOf : Nat → String) (vendors : List Vendor)
    (st : InviteState) : InviteState :=
  vendors.foldl (inviteVendorStep rid tokenOf st.mappings) st

-- ---------------------------------------------------------------------------
-- Inbound IMAP poll cycle (pollInboxForRfpEmails, imapWorker.js)
-- ---------------------------------------------------------------------------

/-- A message as fetched from the mailbox: envelope attributes plus whether
the MIME parse of its raw source succeeds (an external outcome). -/
structure FetchedMsg where
  uid : Nat
  messageId : Option String := none
  subject : Option String := none
  fromAddress : Option String := none
  toAddresses : List String := []
  parseOk : Bool := true
  receivedAt : Nat := 0
deriving Repr, DecidableEq

/-- Line 172 of imapWorker.js: the sender address lowercased, with a
missing or empty address collapsing to null. -/
def msgFromAddr (m : FetchedMsg) : Option String :=
  match m.fromAddress with
  | none => none
  | some a => if a.toLower = "" then none else some a.toLower

/-- The messageMap (a JS Map keyed by uid): first insertion fixes the
position, a later message with the same uid replaces the value. -/
def messageMapEntries (batch : List FetchedMsg) : List FetchedMsg :=
  batch.foldl (fun acc m =>
    if acc.any (fun x => x.uid == m.uid)
    then acc.map (fun x => if x.uid == m.uid then m else x)
    else acc ++ [m]) []

/-- The per-message resolution chain of the poll loop (imapWorker.js lines
225-301): routing token, duplicate-id dedupe against the batched store
lookup, mapping lookup by token, vendor and rfp lookup, sender anti-spoof
check, MIME parse; a message surviving every check becomes the inbound
email row to insert. -/
def resolveMsg (storedIds : List String) (mappings : List RfpVendorRow)
    (vendors : List Vendor) (rfps : List Rfp) (m : FetchedMsg) : Option EmailRow :=
  match m.toAddresses.findSome? (fun a => parseRfpPlusAddress a.data) with
  | none => none
  | some tokenChars =>
    if (match m.messageId with
        | some mid => storedIds.contains mid
        | none => false) then none else
    match lookupLast (fun mp => mp.reply_token == some (String.mk tokenChars)) mappings with
    | none => none
    | some mapping =>
      match lookupLast (fun v => v.id == mapping.vendor_id) vendors,
            lookupLast (fun r => r.id == mapping.rfp_id) rfps with
      | some vendor, some rfp =>
        if (match msgFromAddr m, vendor.email with
            | some fa, some ve => if ve = "" then false else fa != ve.toLower
            | _, _ => false) then none
        else if !m.parseOk then none
        else some
          { id := 0
            rfp_id := some rfp.id
            vendor_id := some vendor.id
            direction := "inbound"
            subject := some ((jsStrOrNull m.subject).getD "(no subject)")
            body_text := none
            message_id := m.messageId
            received_at := some m.receivedAt }
      | _, _ => none

/-- One poll cycle of pollInboxForRfpEmails restricted to its datastore
effect on the emails table: batch-compute the set of already-stored message
identifiers, resolve every messageMap entry, and bulk-insert the survivors. -/
def pollCycle (mappings : List RfpVendorRow) (vendors : List Vendor)
    (rfps : List Rfp) (store : List EmailRow) (batch : List FetchedMsg) :
    List EmailRow :=
  let entries := messageMapEntries batch
  let storedIds := store.filterMap (fun e => e.message_id)
  let inserts := entries.filterMap (resolveMsg storedIds mappings vendors rfps)
  store ++ inserts

-- ---------------------------------------------------------------------------
-- Concrete sample data for the reconciliation engine
-- ---------------------------------------------------------------------------

/-- A sample RFP used to instantiate the reconciliation theorems. -/
def reconSampleRfp : Rfp := { id := 1, status := "sent" }

/-- A sample parsed payload (no line items). -/
def reconSampleParsed : ParsedProposal :=
  { total_price := some 250, currency_code := "USD", delivery_text := none
    delivery_days := none, warranty_text := none, warranty_months := none
    payment_terms := none, items_match := none, ai_score := none
    ai_reasoning := "", items := [] }

/-- A sample datastore state with one existing proposal for vendor 2. -/
def reconSampleState : ReconState :=
  { rfps := [reconSampleRfp]
    proposals := [{ id := 4, rfp_id := 1, vendor_id := 2, version := 2, status := "pending" }]
    proposalItems := []
    nextProposalId := 5 }

/-- A sample parsed entry for vendor 2. -/
def reconSampleEntry : ParsedEntry :=
  { vendor_id := 2, email_id := 11, parsed := reconSampleParsed }

/-- The row vendor 2's proposal becomes after the sample reconciliation. -/
def reconSampleRow : Proposal :=
  { id := 4, rfp_id := 1, vendor_id := 2, version := 2, status := "pending"
    email_id := some 11, total_price := some 250, currency_code := "USD"
    ai_parsed := some reconSampleParsed }

-- ---------------------------------------------------------------------------
-- Helper lemmas
-- ---------------------------------------------------------------------------

/-- Filtering after a map that fixes every element satisfying p and never
makes an element newly satisfy p leaves the filter unchanged. -/
theorem filter_map_eq_filter {α : Type} (p : α → Bool) (f : α → α) (l : List α)
    (h1 : ∀ x ∈ l, p x = true → f x = x)
    (h2 : ∀ x ∈ l, p x = false → p (f x) = false) :
    (l.map f).filter p = l.filter p := by
  induction l with
  | nil => rfl
  | cons a t ih =>
    have ht : (t.map f).filter p = t.filter p :=
      ih (fun x hx => h1 x (List.mem_cons_of_mem a hx))
         (fun x hx => h2 x (List.mem_cons_of_mem a hx))
    by_cases hp : p a = true
    · have hfa : f a = a := h1 a (List.mem_cons_self a t) hp
      simp [List.filter_cons, hfa, hp, ht]
    · have hpa : p a = false := by
        cases hpa : p a with
        | true => exact absurd hpa hp
        | false => rfl
      have hfa : p (f a) = false := h2 a (List.mem_cons_self a t) hpa
      simp [List.filter_cons, hpa, hfa, ht]

-- ---------------------------------------------------------------------------
-- C2: rejecting an awarded proposal is a reported error with no effects
-- ---------------------------------------------------------------------------

/-- C2: when the proposal located for (rfp_id, vendor_id) is already
awarded, rejectProposalService returns the reported error, leaves the
datastore state unchanged, performs no status update, and dispatches
neither the rating recompute nor the rejection email. -/
theorem rejectProposalService_awarded_is_error (vendors : List Vendor)
    (st : AwardState) (rid vid : Nat) (p : Proposal)
    (hfind : st.proposals.find? (fun q => q.rfp_id == rid && q.vendor_id == vid) = some p)
    (hstatus : p.status = "awarded") :
    rejectProposalService vendors st rid vid =
      ⟨some "Cannot reject an already awarded proposal", st, false, false⟩ := by
  unfold rejectProposalService
  rw [hfind]
  simp [hstatus]

/-- Witness for C2 at a concrete one-proposal state. -/
theorem rejectProposalService_awarded_is_error_witness :
    rejectProposalService []
      { rfps := [], proposals := [{ id := 1, rfp_id := 1, vendor_id := 2, status := "awarded" }] }
      1 2 =
      ⟨some "Cannot reject an already awarded proposal",
       { rfps := [], proposals := [{ id := 1, rfp_id := 1, vendor_id := 2, status := "awarded" }] },
       false, false⟩ :=
  rejectProposalService_awarded_is_error [] _ 1 2
    { id := 1, rfp_id := 1, vendor_id := 2, status := "awarded" }
    (by decide) rfl

-- ---------------------------------------------------------------------------
-- C3: version behaviour of the reconciliation upsert
-- ---------------------------------------------------------------------------

/-- Counterexample to C3 as stated: reconciling a vendor that has an
existing proposal (here at version 3) updates the row's fields (the total
price changes from none to 500) but does NOT increment its version, which
stays at 3 instead of moving to 4. -/
theorem reconcileVendor_version_counterexample :
    ((reconcileVendor { id := 1, status := "evaluating" }
        [{ id := 7, rfp_id := 1, vendor_id := 2, version := 3, status := "pending" }]
        { rfps := [{ id := 1, status := "evaluating" }]
          proposals := [{ id := 7, rfp_id := 1, vendor_id := 2, version := 3, status := "pending" }]
          proposalItems := []
          nextProposalId := 8 }
        { vendor_id := 2, email_id := 10
          parsed :=
            { total_price := some 500, currency_code := "USD", delivery_text := none
              delivery_days := none, warranty_text := none, warranty_months := none
              payment_terms := none, items_match := none, ai_score := none
              ai_reasoning := "", items := [] } }).proposals.map
        (fun p => (p.id, p.version, p.total_price)))
      = [(7, 3, some 500)] := by
  decide

/-- C3 amended: after a reconciliation iteration every proposal row either
is an original row with its id, version and status unchanged (the update
path merges baseFields, which contain neither version nor status), or is a
freshly created row at version 1 with status "pending". -/
theorem reconcileVendor_version_spec (rfp : Rfp) (existing : List Proposal)
    (st : ReconState) (e : ParsedEntry) :
    ∀ q ∈ (reconcileVendor rfp existing st e).proposals,
      (∃ q0 ∈ st.proposals, q.id = q0.id ∧ q.version = q0.version ∧ q.status = q0.status) ∨
      (q.version = 1 ∧ q.status = "pending") := by
  intro q hq
  unfold reconcileVendor at hq
  cases hfind : lookupLast
      (fun p => p.rfp_id == rfp.id && p.vendor_id == e.vendor_id) existing with
  | some proposal =>
    rw [hfind] at hq
    simp only [List.mem_map] at hq
    obtain ⟨q0, hq0, hmap⟩ := hq
    left
    refine ⟨q0, hq0, ?_⟩
    by_cases hid : (q0.id == proposal.id) = true
    · simp only [hid, if_true] at hmap
      subst hmap
      simp [applyBaseFields]
    · simp only [hid] at hmap
      simp only [Bool.false_eq_true, if_false] at hmap
      subst hmap
      exact ⟨rfl, rfl, rfl⟩
  | none =>
    rw [hfind] at hq
    simp only [List.mem_append, List.mem_singleton] at hq
    cases hq with
    | inl h => exact Or.inl ⟨q, h, rfl, rfl, rfl⟩
    | inr h =>
      subst h
      right
      simp [newProposalRow]

/-- Witness for the amended C3 at the sample state: the reconciled row of
vendor 2 keeps the id, version and status of the pre-existing row. -/
theorem reconcileVendor_version_spec_witness :
    (∃ q0 ∈ reconSampleState.proposals,
      reconSampleRow.id = q0.id ∧ reconSampleRow.version = q0.version ∧
      reconSampleRow.status = q0.status) ∨
    (reconSampleRow.version = 1 ∧ reconSampleRow.status = "pending") :=
  reconcileVendor_version_spec reconSampleRfp reconSampleState.proposals
    reconSampleState reconSampleEntry reconSampleRow (by decide)

-- ---------------------------------------------------------------------------
-- C10: truthiness-or-null coercion of baseFields
-- ---------------------------------------------------------------------------

/-- C10: every numeric field of baseFields whose parsed value is 0 and
every text field whose parsed value is the empty string is stored as null,
because the fields are mapped with the JS pattern "x || null". -/
theorem mkBaseFields_zero_is_null (rfp : Rfp) (emailId : Nat)
    (parsed : ParsedProposal) :
    (parsed.total_price = some 0 → (mkBaseFields rfp emailId parsed).total_price = none) ∧
    (parsed.delivery_days = some 0 → (mkBaseFields rfp emailId parsed).delivery_days = none) ∧
    (parsed.ai_score = some 0 → (mkBaseFields rfp emailId parsed).ai_score = none) ∧
    (parsed.warranty_months = some 0 → (mkBaseFields rfp emailId parsed).warranty_months = none) ∧
    (parsed.delivery_text = some "" → (mkBaseFields rfp emailId parsed).delivery_text = none) ∧
    (parsed.warranty_text = some "" → (mkBaseFields rfp emailId parsed).warranty_text = none) ∧
    (parsed.payment_terms = some "" → (mkBaseFields rfp emailId parsed).payment_terms = none) ∧
    (parsed.ai_reasoning = "" → (mkBaseFields rfp emailId parsed).ai_reasoning = none) := by
  refine ⟨?_, ?_, ?_, ?_, ?_, ?_, ?_, ?_⟩ <;>
    (intro h; simp [mkBaseFields, jsNumOrNull, jsStrOrNull, h])

/-- Witness for C10: a payload whose total price, delivery days, score,
warranty months are 0 and whose text fields are empty is stored with all
those fields null. -/
theorem mkBaseFields_zero_is_null_witness :
    (mkBaseFields { id := 1, status := "sent" } 3
      { total_price := some 0, currency_code := "USD", delivery_text := some ""
        delivery_days := some 0, warranty_text := some "", warranty_months := some 0
        payment_terms := some "", items_match := none, ai_score := some 0
        ai_reasoning := "", items := [] }).total_price = none ∧
    (mkBaseFields { id := 1, status := "sent" } 3
      { total_price := some 0, currency_code := "USD", delivery_text := some ""
        delivery_days := some 0, warranty_text := some "", warranty_months := some 0
        payment_terms := some "", items_match := none, ai_score := some 0
        ai_reasoning := "", items := [] }).delivery_days = none ∧
    (mkBaseFields { id := 1, status := "sent" } 3
      { total_price := some 0, currency_code := "USD", delivery_text := some ""
        delivery_days := some 0, warranty_text := some "", warranty_months := some 0
        payment_terms := some "", items_match := none, ai_score := some 0
        ai_reasoning := "", items := [] }).ai_score = none := by
  have h := mkBaseFields_zero_is_null { id := 1, status := "sent" } 3
      { total_price := some 0, currency_code := "USD", delivery_text := some ""
        delivery_days := some 0, warranty_text := some "", warranty_months := some 0
        payment_terms := some "", items_match := none, ai_score := some 0
        ai_reasoning := "", items := [] }
  exact ⟨h.1 rfl, h.2.1 rfl, h.2.2.1 rfl⟩

-- ---------------------------------------------------------------------------
-- C9: extraction failures versus zero-item payloads
-- ---------------------------------------------------------------------------

/-- Counterexample to C9 as stated: a completion-service response that
parses to a payload with ZERO line items is not skipped - the vendor
reaches reconciliation and a proposal row is created for it (version 1,
status pending), while the payload's item list is indeed empty. -/
theorem parseProposals_zero_items_counterexample :
    ((parseProposalsService
        (fun _ => .ok (normalizeProposalOutput { total_price := some 100 }))
        { id := 1, status := "sent" }
        [{ email_id := 10, vendor_id := 2 }]
        { rfps := [{ id := 1, status := "sent" }], proposals := [],
          proposalItems := [], nextProposalId := 5 }).2.proposals.map
        (fun p => (p.vendor_id, p.status, p.version)))
      = [(2, "pending", 1)] ∧
    (normalizeProposalOutput { total_price := some 100 }).items = [] := by
  exact ⟨by decide, by decide⟩

/-- One reconciliation iteration for a vendor other than vid does not
change the set of vid's proposal rows, and preserves id-freshness. -/
theorem reconcileVendor_other_vendor_frame (rfp : Rfp) (snap : List Proposal)
    (vid : Nat) (hsnap : (snap.map (fun p => p.id)).Nodup)
    (st : ReconState) (e : ParsedEntry) (hne : e.vendor_id ≠ vid)
    (hfilter : st.proposals.filter (fun p => p.vendor_id == vid)
      = snap.filter (fun p => p.vendor_id == vid))
    (hnodup : (st.proposals.map (fun p => p.id)).Nodup)
    (hbound : ∀ p ∈ st.proposals, p.id < st.nextProposalId) :
    ((reconcileVendor rfp snap st e).proposals.filter (fun p => p.vendor_id == vid)
       = snap.filter (fun p => p.vendor_id == vid)) ∧
    (((reconcileVendor rfp snap st e).proposals.map (fun p => p.id)).Nodup) ∧
    (∀ p ∈ (reconcileVendor rfp snap st e).proposals,
       p.id < (reconcileVendor rfp snap st e).nextProposalId) := by
  cases hfind : lookupLast
      (fun p => p.rfp_id == rfp.id && p.vendor_id == e.vendor_id) snap with
  | some matched =>
    have hmemRev : matched ∈ snap.reverse := List.mem_of_find?_eq_some hfind
    have hmem : matched ∈ snap := List.mem_reverse.mp hmemRev
    have hpred := List.find?_some hfind
    have hvend : matched.vendor_id = e.vendor_id := by
      simp only [Bool.and_eq_true, beq_iff_eq] at hpred
      exact hpred.2
    have hidf : ∀ p : Proposal,
        ((if p.id == matched.id
          then applyBaseFields p (mkBaseFields rfp e.email_id e.parsed)
          else p) : Proposal).id = p.id := by
      intro p
      split
      · rfl
      · rfl
    have hvendf : ∀ p : Proposal,
        ((if p.id == matched.id
          then applyBaseFields p (mkBaseFields rfp e.email_id e.parsed)
          else p) : Proposal).vendor_id = p.vendor_id := by
      intro p
      split
      · rfl
      · rfl
    have hmap : ((st.proposals.map (fun p =>
          if p.id == matched.id
          then applyBaseFields p (mkBaseFields rfp e.email_id e.parsed)
          else p)).filter (fun p => p.vendor_id == vid))
        = st.proposals.filter (fun p => p.vendor_id == vid) := by
      apply filter_map_eq_filter
      · intro x hx hpx
        have hxsnap : x ∈ snap := by
          have hxf : x ∈ st.proposals.filter (fun p => p.vendor_id == vid) :=
            List.mem_filter.mpr ⟨hx, hpx⟩
          rw [hfilter] at hxf
          exact (List.mem_filter.mp hxf).1
        have hxvid : x.vendor_id = vid := by simpa using hpx
        have hxne : x ≠ matched := by
          intro hcontra
          apply hne
          rw [← hvend, ← hcontra, hxvid]
        have hidne : ¬(x.id = matched.id) := by
          intro hcontra
          exact hxne (List.inj_on_of_nodup_map hsnap hxsnap hmem hcontra)
        simp [hidne]
      · intro x hx hpx
        rw [hvendf x]
        exact hpx
    have hids : ((st.proposals.map (fun p =>
          if p.id == matched.id
          then applyBaseFields p (mkBaseFields rfp e.email_id e.parsed)
          else p)).map (fun p => p.id))
        = st.proposals.map (fun p => p.id) := by
      rw [List.map_map]
      exact List.map_congr_left (fun x _ => hidf x)
    refine ⟨?_, ?_, ?_⟩
    · rw [show ((reconcileVendor rfp snap st e).proposals)
            = (st.proposals.map (fun p =>
                if p.id == matched.id
                then applyBaseFields p (mkBaseFields rfp e.email_id e.parsed)
                else p)) from by
          unfold reconcileVendor
          rw [hfind]]
      rw [hmap, hfilter]
    · rw [show ((reconcileVendor rfp snap st e).proposals)
            = (st.proposals.map (fun p =>
                if p.id == matched.id
                then applyBaseFields p (mkBaseFields rfp e.email_id e.parsed)
                else p)) from by
          unfold reconcileVendor
          rw [hfind]]
      rw [hids]
      exact hnodup
    · intro p hp
      rw [show ((reconcileVendor rfp snap st e).proposals)
            = (st.proposals.map (fun q =>
                if q.id == matched.id
                then applyBaseFields q (mkBaseFields rfp e.email_id e.parsed)
                else q)) from by
          unfold reconcileVendor
          rw [hfind]] at hp
      rw [show ((reconcileVendor rfp snap st e).nextProposalId)
            = st.nextProposalId from by
          unfold reconcileVendor
          rw [hfind]]
      simp only [List.mem_map] at hp
      obtain ⟨q, hq, hfq⟩ := hp
      have hpq : p.id = q.id := by rw [← hfq]; exact hidf q
      rw [hpq]
      exact hbound q hq
  | none =>
    have hprops : ((reconcileVendor rfp snap st e).proposals)
        = st.proposals ++ [newProposalRow st.nextProposalId rfp.id e.vendor_id
            (mkBaseFields rfp e.email_id e.parsed)] := by
      unfold reconcileVendor
      rw [hfind]
    have hnext : ((reconcileVendor rfp snap st e).nextProposalId)
        = st.nextProposalId + 1 := by
      unfold reconcileVendor
      rw [hfind]
    refine ⟨?_, ?_, ?_⟩
    · rw [hprops, List.filter_append]
      have hrow : ([newProposalRow st.nextProposalId rfp.id e.vendor_id
                (mkBaseFields rfp e.email_id e.parsed)].filter
               (fun p => p.vendor_id == vid)) = [] := by
        simp [newProposalRow, hne]
      rw [hrow, List.append_nil, hfilter]
    · rw [hprops, List.map_append]
      apply List.Nodup.append hnodup
      · simp [newProposalRow]
      · intro a ha hb
        simp only [List.map_cons, List.map_nil, List.mem_singleton, newProposalRow] at hb
        simp only [List.mem_map] at ha
        obtain ⟨q, hq, hqa⟩ := ha
        have hqb := hbound q hq
        omega
    · intro p hp
      rw [hprops] at hp
      rw [hnext]
      simp only [List.mem_append, List.mem_singleton] at hp
      cases hp with
      | inl h =>
        have hpb := hbound p h
        omega
      | inr h =>
        subst h
        simp [newProposalRow]

/-- The whole step-6 loop keeps the set of vid's proposal rows unchanged
when no processed entry belongs to vid. -/
theorem reconcile_fold_frame (rfp : Rfp) (snap : List Proposal) (vid : Nat)
    (hsnap : (snap.map (fun p => p.id)).Nodup) :
    ∀ (entries : List ParsedEntry) (st : ReconState),
      (∀ e ∈ entries, e.vendor_id ≠ vid) →
      st.proposals.filter (fun p => p.vendor_id == vid)
        = snap.filter (fun p => p.vendor_id == vid) →
      (st.proposals.map (fun p => p.id)).Nodup →
      (∀ p ∈ st.proposals, p.id < st.nextProposalId) →
      ((entries.foldl (reconcileVendor rfp snap) st).proposals.filter
          (fun p => p.vendor_id == vid)
        = snap.filter (fun p => p.vendor_id == vid)) := by
  intro entries
  induction entries with
  | nil => intro st _ hfilter _ _; exact hfilter
  | cons e es ih =>
    intro st hall hfilter hnodup hbound
    have hne : e.vendor_id ≠ vid := hall e (List.mem_cons_self e es)
    obtain ⟨h1, h2, h3⟩ :=
      reconcileVendor_other_vendor_frame rfp snap vid hsnap st e hne hfilter hnodup hbound
    exact ih (reconcileVendor rfp snap st e)
      (fun x hx => hall x (List.mem_cons_of_mem e hx)) h1 h2 h3

/-- C9 amended: a participant whose completion-service call THROWS is
skipped for the cycle - it never enters parsedByVendorId and no proposal
row of that participant is created or updated; a payload that parses
successfully reaches reconciliation whatever its item count (the zero-item
case is the counterexample above). -/
theorem parseProposalsService_throw_is_skipped
    (outcome : Nat → Except String ParsedProposal) (rfp : Rfp)
    (pairs : List EmailVendorPair) (st : ReconState) (vid : Nat) (msg : String)
    (hthrow : outcome vid = .error msg)
    (hnodup : (st.proposals.map (fun p => p.id)).Nodup)
    (hbound : ∀ p ∈ st.proposals, p.id < st.nextProposalId) :
    (∀ en ∈ extractProposals outcome pairs, en.vendor_id ≠ vid) ∧
    ((parseProposalsService outcome rfp pairs st).2.proposals.filter
        (fun p => p.vendor_id == vid)
      = st.proposals.filter (fun p => p.vendor_id == vid)) := by
  have hskip : ∀ en ∈ extractProposals outcome pairs, en.vendor_id ≠ vid := by
    intro en hen
    unfold extractProposals at hen
    rw [List.mem_filterMap] at hen
    obtain ⟨pr, _, hpr⟩ := hen
    cases hout : outcome pr.vendor_id with
    | ok parsed =>
      rw [hout] at hpr
      simp only [Option.some.injEq] at hpr
      subst hpr
      intro hcontra
      simp only [] at hcontra
      rw [hcontra, hthrow] at hout
      exact Except.noConfusion hout
    | error e =>
      rw [hout] at hpr
      exact Option.noConfusion hpr
  refine ⟨hskip, ?_⟩
  unfold parseProposalsService
  cases hcase : (extractProposals outcome pairs).isEmpty with
  | true => simp [hcase]
  | false =>
    simp only [hcase, Bool.false_eq_true, if_false]
    unfold parseProposalsTxn
    have hfold := reconcile_fold_frame rfp st.proposals vid hnodup
      (extractProposals outcome pairs) st hskip rfl hnodup hbound
    cases hif : (!(extractProposals outcome pairs).isEmpty && rfp.status != "closed") with
    | true => simp only [hif, if_true]; exact hfold
    | false => simp only [hif, Bool.false_eq_true, if_false]; exact hfold

/-- Witness for the amended C9: vendor 3's extraction throws, vendor 2's
succeeds; vendor 3's existing proposal row is untouched and vendor 3 never
enters the parsed set. -/
theorem parseProposalsService_throw_is_skipped_witness :
    (∀ en ∈ extractProposals
        (fun v => if v = 3 then .error "boom"
                  else .ok (normalizeProposalOutput { total_price := some 100 }))
        [{ email_id := 10, vendor_id := 2 }, { email_id := 11, vendor_id := 3 }],
      en.vendor_id ≠ 3) ∧
    ((parseProposalsService
        (fun v => if v = 3 then .error "boom"
                  else .ok (normalizeProposalOutput { total_price := some 100 }))
        { id := 1, status := "sent" }
        [{ email_id := 10, vendor_id := 2 }, { email_id := 11, vendor_id := 3 }]
        { rfps := [{ id := 1, status := "sent" }],
          proposals := [{ id := 4, rfp_id := 1, vendor_id := 3, version := 2, status := "pending" }],
          proposalItems := [], nextProposalId := 5 }).2.proposals.filter
        (fun p => p.vendor_id == 3)
      = ({ rfps := [{ id := 1, status := "sent" }],
           proposals := [{ id := 4, rfp_id := 1, vendor_id := 3, version := 2, status := "pending" }],
           proposalItems := [], nextProposalId := 5 } : ReconState).proposals.filter
        (fun p => p.vendor_id == 3)) :=
  parseProposalsService_throw_is_skipped _ _ _ _ 3 "boom"
    (by rfl) (by decide) (by decide)

-- ---------------------------------------------------------------------------
-- C7: cross-cycle message-id deduplication
-- ---------------------------------------------------------------------------

/-- Every row resolveMsg emits carries the message identifier of the
fetched message it came from. -/
theorem resolveMsg_message_id {sids : List String} {mp : List RfpVendorRow}
    {vd : List Vendor} {rf : List Rfp} {m : FetchedMsg} {row : EmailRow}
    (h : resolveMsg sids mp vd rf m = some row) : row.message_id = m.messageId := by
  unfold resolveMsg at h
  repeat' split at h
  all_goals first
    | exact Option.noConfusion h
    | (injection h with h1; subst h1; rfl)

/-- A fetched message whose identifier is already among the stored ones is
skipped by the dedupe check before insertion. -/
theorem resolveMsg_dup_skipped {sids : List String} {mp : List RfpVendorRow}
    {vd : List Vendor} {rf : List Rfp} {m : FetchedMsg} {mid : String}
    (hm : m.messageId = some mid) (hc : sids.contains mid = true) :
    resolveMsg sids mp vd rf m = none := by
  unfold resolveMsg
  cases hroute : m.toAddresses.findSome? (fun a => parseRfpPlusAddress a.data) with
  | none => rfl
  | some tok =>
    have hcond : (match m.messageId with
                  | some mid' => sids.contains mid'
                  | none => false) = true := by
      rw [hm]
      exact hc
    simp only [hcond, if_true]

/-- Counting survivors of a filterMap: if every emitted value satisfying p
comes from a source satisfying q, the p-count of the output is bounded by
the q-count of the input. -/
theorem countP_filterMap_le {α β : Type} (l : List α) (f : α → Option β)
    (p : β → Bool) (q : α → Bool)
    (h : ∀ a ∈ l, ∀ b, f a = some b → p b = true → q a = true) :
    (l.filterMap f).countP p ≤ l.countP q := by
  induction l with
  | nil => simp
  | cons a t ih =>
    have iht := ih (fun x hx b hb hp => h x (List.mem_cons_of_mem a hx) b hb hp)
    cases hfa : f a with
    | none =>
      rw [List.filterMap_cons_none hfa, List.countP_cons]
      exact le_trans iht (Nat.le_add_right _ _)
    | some b =>
      rw [List.filterMap_cons_some hfa, List.countP_cons, List.countP_cons]
      by_cases hp : p b = true
      · have hq : q a = true := h a (List.mem_cons_self a t) b hfa hp
        simp only [hp, hq, if_true]
        omega
      · have hp' : p b = false := by
          cases hpb : p b with
          | true => exact absurd hpb hp
          | false => rfl
        simp only [hp', Bool.false_eq_true, if_false]
        exact le_trans iht (Nat.le_add_right _ _)

/-- Unfolding equation for pollCycle. -/
theorem pollCycle_eq (mappings : List RfpVendorRow) (vendors : List Vendor)
    (rfps : List Rfp) (store : List EmailRow) (batch : List FetchedMsg) :
    pollCycle mappings vendors rfps store batch
      = store ++ (messageMapEntries batch).filterMap
          (resolveMsg (store.filterMap (fun e => e.message_id)) mappings vendors rfps) :=
  rfl

/-- C7: for a non-null provider message identifier, across two consecutive
poll cycles that each fetch at most one message bearing that identifier, at
most one inbound email row with that identifier is inserted in total: if
the first cycle inserted it, the second cycle's batched lookup of stored
identifiers makes the dedupe check skip it before insertion. -/
theorem pollCycle_no_duplicate_insert (mappings : List RfpVendorRow)
    (vendors : List Vendor) (rfps : List Rfp) (store : List EmailRow)
    (batch1 batch2 : List FetchedMsg) (mid : String)
    (h1 : (messageMapEntries batch1).countP (fun msg => msg.messageId == some mid) ≤ 1)
    (h2 : (messageMapEntries batch2).countP (fun msg => msg.messageId == some mid) ≤ 1) :
    ∃ ins1 ins2,
      pollCycle mappings vendors rfps store batch1 = store ++ ins1 ∧
      pollCycle mappings vendors rfps (store ++ ins1) batch2 = (store ++ ins1) ++ ins2 ∧
      (ins1 ++ ins2).countP (fun e => e.message_id == some mid) ≤ 1 := by
  refine ⟨(messageMapEntries batch1).filterMap
            (resolveMsg (store.filterMap (fun e => e.message_id)) mappings vendors rfps),
          (messageMapEntries batch2).filterMap
            (resolveMsg ((store ++ (messageMapEntries batch1).filterMap
                (resolveMsg (store.filterMap (fun e => e.message_id)) mappings vendors rfps)).filterMap
                  (fun e => e.message_id)) mappings vendors rfps),
          pollCycle_eq mappings vendors rfps store batch1,
          pollCycle_eq mappings vendors rfps
            (store ++ (messageMapEntries batch1).filterMap
              (resolveMsg (store.filterMap (fun e => e.message_id)) mappings vendors rfps))
            batch2, ?_⟩
  set sids1 := store.filterMap (fun e => e.message_id) with hsids1
  set ins1 := (messageMapEntries batch1).filterMap
      (resolveMsg sids1 mappings vendors rfps) with hins1
  set sids2 := (store ++ ins1).filterMap (fun e => e.message_id) with hsids2
  set ins2 := (messageMapEntries batch2).filterMap
      (resolveMsg sids2 mappings vendors rfps) with hins2
  have hb1 : ins1.countP (fun e => e.message_id == some mid) ≤ 1 := by
    refine le_trans (countP_filterMap_le _ _ _ _ ?_) h1
    intro a _ b hb hp
    have hid := resolveMsg_message_id hb
    simp only [beq_iff_eq] at hp ⊢
    rw [← hid]
    exact hp
  have hb2 : ins2.countP (fun e => e.message_id == some mid) ≤ 1 := by
    refine le_trans (countP_filterMap_le _ _ _ _ ?_) h2
    intro a _ b hb hp
    have hid := resolveMsg_message_id hb
    simp only [beq_iff_eq] at hp ⊢
    rw [← hid]
    exact hp
  rw [List.countP_append]
  by_cases hcase : ins1.countP (fun e => e.message_id == some mid) = 0
  · omega
  · have hpos : 0 < ins1.countP (fun e => e.message_id == some mid) := by omega
    rw [List.countP_pos_iff] at hpos
    obtain ⟨row, hrowMem, hrowP⟩ := hpos
    have hrowId : row.message_id = some mid := by simpa using hrowP
    have hmemIds : mid ∈ sids2 := by
      rw [hsids2]
      exact List.mem_filterMap.mpr
        ⟨row, List.mem_append_right store hrowMem, hrowId⟩
    have hcontains : sids2.contains mid = true := List.elem_iff.mpr hmemIds
    have hz : ins2.countP (fun e => e.message_id == some mid) = 0 := by
      rw [List.countP_eq_zero]
      intro row2 hrow2
      rw [hins2] at hrow2
      obtain ⟨m2, _, hm2⟩ := List.mem_filterMap.mp hrow2
      cases hm2id : m2.messageId with
      | some mid2 =>
        by_cases hmid : mid2 = mid
        · subst hmid
          rw [resolveMsg_dup_skipped hm2id hcontains] at hm2
          exact Option.noConfusion hm2
        · have hid := resolveMsg_message_id hm2
          simp only [beq_iff_eq]
          rw [hid, hm2id]
          intro hcontra
          exact hmid (Option.some.inj hcontra)
      | none =>
        have hid := resolveMsg_message_id hm2
        simp only [beq_iff_eq]
        rw [hid, hm2id]
        intro hcontra
        exact Option.noConfusion hcontra
    omega

/-- Witness for C7 at a concrete two-cycle run: the same message (identifier
"X") fetched in both cycles is stored exactly once. -/
theorem pollCycle_no_duplicate_insert_witness :
    ∃ ins1 ins2,
      pollCycle
        [{ id := 1, rfp_id := 1, vendor_id := 7, invite_status := "sent",
           reply_token := some "abc123def456", last_email_id := none }]
        [{ id := 7, name := "V", email := some "vendor@example.com" }]
        [{ id := 1, status := "sent" }] []
        [{ uid := 1, messageId := some "X", subject := some "Re",
           fromAddress := some "vendor@example.com",
           toAddresses := ["user+rfp_abc123def456@gmail.com"],
           parseOk := true, receivedAt := 9 }] = [] ++ ins1 ∧
      pollCycle
        [{ id := 1, rfp_id := 1, vendor_id := 7, invite_status := "sent",
           reply_token := some "abc123def456", last_email_id := none }]
        [{ id := 7, name := "V", email := some "vendor@example.com" }]
        [{ id := 1, status := "sent" }] ([] ++ ins1)
        [{ uid := 5, messageId := some "X", subject := some "Re",
           fromAddress := some "vendor@example.com",
           toAddresses := ["user+rfp_abc123def456@gmail.com"],
           parseOk := true, receivedAt := 12 }] = ([] ++ ins1) ++ ins2 ∧
      (ins1 ++ ins2).countP (fun e => e.message_id == some "X") ≤ 1 :=
  pollCycle_no_duplicate_insert _ _ _ _ _ _ "X" (by decide) (by decide)

-- ---------------------------------------------------------------------------
-- C8: the sender anti-spoof check
-- ---------------------------------------------------------------------------

/-- Counterexample to C8 as stated: a fetched message carrying a valid
correlation token but NO sender address is persisted, not skipped - the
guard `fromAddr && vendor.email && ...` is falsy when fromAddr is null, so
the anti-spoof comparison never fires. -/
theorem resolveMsg_no_sender_counterexample :
    msgFromAddr
      { uid := 1, messageId := some "m1", subject := some "Re",
        fromAddress := none,
        toAddresses := ["user+rfp_abc123def456@gmail.com"],
        parseOk := true, receivedAt := 9 } = none ∧
    (resolveMsg []
        [{ id := 1, rfp_id := 1, vendor_id := 7, invite_status := "sent",
           reply_token := some "abc123def456", last_email_id := none }]
        [{ id := 7, name := "V", email := some "vendor@example.com" }]
        [{ id := 1, status := "sent" }]
        { uid := 1, messageId := some "m1", subject := some "Re",
          fromAddress := none,
          toAddresses := ["user+rfp_abc123def456@gmail.com"],
          parseOk := true, receivedAt := 9 }).isSome = true := by
  exact ⟨by decide, by decide⟩

/-- C8 amended: for a message that has a resolvable token, passes the
dedupe check, whose mapping, vendor and RFP load, and whose MIME parse
succeeds, the poll loop skips it if and only if the sender address is
present, the vendor's address is present and non-empty, and the two differ
after lowercasing.  In particular a message with NO sender address (or a
vendor with no stored address) is persisted without any sender check. -/
theorem resolveMsg_spoof_rule (sids : List String) (mp : List RfpVendorRow)
    (vd : List Vendor) (rf : List Rfp) (m : FetchedMsg) (tok : List Char)
    (mapping : RfpVendorRow) (vendor : Vendor) (rfp : Rfp)
    (hroute : m.toAddresses.findSome? (fun a => parseRfpPlusAddress a.data) = some tok)
    (hdup : (match m.messageId with
             | some mid => sids.contains mid
             | none => false) = false)
    (hmap : lookupLast (fun x => x.reply_token == some (String.mk tok)) mp = some mapping)
    (hv : lookupLast (fun v => v.id == mapping.vendor_id) vd = some vendor)
    (hr : lookupLast (fun r => r.id == mapping.rfp_id) rf = some rfp)
    (hparse : m.parseOk = true) :
    (resolveMsg sids mp vd rf m = none ↔
      ∃ fa ve, msgFromAddr m = some fa ∧ vendor.email = some ve ∧
        ve ≠ "" ∧ fa ≠ ve.toLower) := by
  have hres : resolveMsg sids mp vd rf m =
      (if (match msgFromAddr m, vendor.email with
           | some fa, some ve => if ve = "" then false else fa != ve.toLower
           | _, _ => false) = true
       then none
       else some
         { id := 0
           rfp_id := some rfp.id
           vendor_id := some vendor.id
           direction := "inbound"
           subject := some ((jsStrOrNull m.subject).getD "(no subject)")
           body_text := none
           message_id := m.messageId
           received_at := some m.receivedAt }) := by
    unfold resolveMsg
    simp only [hroute, hdup, Bool.false_eq_true, if_false, hmap, hv, hr,
      hparse, Bool.not_true]
  have hiff : ∀ (c : Bool) (r : EmailRow),
      ((if c = true then (none : Option EmailRow) else some r) = none ↔ c = true) := by
    intro c r
    cases c <;> simp
  rw [hres, hiff]
  cases hfa : msgFromAddr m with
  | none => simp
  | some fa =>
    cases hve : vendor.email with
    | none => simp
    | some ve =>
      by_cases hemp : ve = ""
      · subst hemp
        simp
      · simp [hemp, bne_iff_ne]

/-- Witness for the amended C8: a present sender address that differs from
the vendor's address after lowercasing is skipped. -/
theorem resolveMsg_spoof_rule_witness :
    (resolveMsg []
        [{ id := 1, rfp_id := 1, vendor_id := 7, invite_status := "sent",
           reply_token := some "abc123def456", last_email_id := none }]
        [{ id := 7, name := "V", email := some "vendor@example.com" }]
        [{ id := 1, status := "sent" }]
        { uid := 2, messageId := some "m2", subject := some "Re",
          fromAddress := some "evil@attacker.example",
          toAddresses := ["user+rfp_abc123def456@gmail.com"],
          parseOk := true, receivedAt := 9 } = none ↔
      ∃ fa ve,
        msgFromAddr
          { uid := 2, messageId := some "m2", subject := some "Re",
            fromAddress := some "evil@attacker.example",
            toAddresses := ["user+rfp_abc123def456@gmail.com"],
            parseOk := true, receivedAt := 9 } = some fa ∧
        ({ id := 7, name := "V", email := some "vendor@example.com" } : Vendor).email = some ve ∧
        ve ≠ "" ∧ fa ≠ ve.toLower) :=
  resolveMsg_spoof_rule _ _ _ _ _
    ("abc123def456".data)
    { id := 1, rfp_id := 1, vendor_id := 7, invite_status := "sent",
      reply_token := some "abc123def456", last_email_id := none }
    { id := 7, name := "V", email := some "vendor@example.com" }
    { id := 1, status := "sent" }
    (by decide) (by decide) (by decide) (by decide) (by decide) (by decide)

-- ---------------------------------------------------------------------------
-- C6: re-sending a "sent" invitation mapping is a no-op
-- ---------------------------------------------------------------------------

/-- The last-wins Map lookup equals the last element of the filtered list. -/
theorem lookupLast_eq_getLast_filter {α : Type} (p : α → Bool) (l : List α) :
    lookupLast p l = (l.filter p).getLast? := by
  induction l using List.reverseRecOn with
  | nil => rfl
  | append_singleton t a ih =>
    unfold lookupLast at ih ⊢
    rw [List.reverse_append, List.reverse_singleton, List.singleton_append,
      List.filter_append]
    cases hpa : p a with
    | true =>
      rw [List.find?_cons_of_pos _ hpa]
      have : t.filter p ++ [a].filter p = t.filter p ++ [a] := by
        rw [List.filter_singleton, hpa]
        rfl
      rw [this, List.getLast?_concat]
    | false =>
      rw [List.find?_cons_of_neg _ (by rw [hpa]; exact Bool.false_ne_true)]
      have : t.filter p ++ [a].filter p = t.filter p := by
        rw [List.filter_singleton, hpa]
        simp
      rw [this, ih]

/-- The loop iteration for a vendor whose mapping is already "sent" changes
nothing, whatever the accumulated state is. -/
theorem inviteVendorStep_sent_identity (rid : Nat) (tokenOf : Nat → String)
    (snap : List RfpVendorRow) (v : Vendor) (m : RfpVendorRow)
    (hm : lookupLast (fun x => x.rfp_id == rid && x.vendor_id == v.id) snap = some m)
    (hsent : m.invite_status = "sent") :
    ∀ s : InviteState, inviteVendorStep rid tokenOf snap s v = s := by
  intro s
  unfold inviteVendorStep
  cases hvalid : vendorEmailValid v with
  | false => simp
  | true =>
    simp only [hvalid, Bool.not_true, Bool.false_eq_true, if_false, hm, hsent]
    rfl

/-- Steps of the invite loop other than v's preserve both the set of v's
mapping rows and the property that no queued email belongs to v. -/
theorem inviteVendorStep_other_frame (rid : Nat) (tokenOf : Nat → String)
    (snap : List RfpVendorRow) (v : Vendor)
    (hsnap : (snap.map (fun x => x.id)).Nodup)
    (w : Vendor) (hw : w.id ≠ v.id) (s : InviteState) (base : InviteState)
    (hfilter : s.mappings.filter (fun x => x.rfp_id == rid && x.vendor_id == v.id)
      = snap.filter (fun x => x.rfp_id == rid && x.vendor_id == v.id))
    (hqueue : ∀ q ∈ s.emailsQueued, q ∈ base.emailsQueued ∨ q.vendor_id ≠ v.id) :
    ((inviteVendorStep rid tokenOf snap s w).mappings.filter
        (fun x => x.rfp_id == rid && x.vendor_id == v.id)
      = snap.filter (fun x => x.rfp_id == rid && x.vendor_id == v.id)) ∧
    (∀ q ∈ (inviteVendorStep rid tokenOf snap s w).emailsQueued,
      q ∈ base.emailsQueued ∨ q.vendor_id ≠ v.id) := by
  cases hvalid : vendorEmailValid w with
  | false =>
    have hstep : inviteVendorStep rid tokenOf snap s w = s := by
      simp [inviteVendorStep, hvalid]
    rw [hstep]
    exact ⟨hfilter, hqueue⟩
  | true =>
    cases hlook : lookupLast (fun x => x.rfp_id == rid && x.vendor_id == w.id) snap with
    | none =>
      have hstep : inviteVendorStep rid tokenOf snap s w =
          { mappings := s.mappings ++
              [{ id := s.nextMappingId, rfp_id := rid, vendor_id := w.id,
                 invite_status := "pending", reply_token := some (tokenOf w.id),
                 last_email_id := none }],
            emailsQueued := s.emailsQueued ++ [⟨w.id, s.nextMappingId⟩],
            invitedCount := s.invitedCount + 1,
            nextMappingId := s.nextMappingId + 1 } := by
        simp [inviteVendorStep, hvalid, hlook]
      rw [hstep]
      refine ⟨?_, ?_⟩
      · rw [List.filter_append]
        have hnew : (List.filter (fun x => x.rfp_id == rid && x.vendor_id == v.id)
            [({ id := s.nextMappingId, rfp_id := rid, vendor_id := w.id,
                invite_status := "pending", reply_token := some (tokenOf w.id),
                last_email_id := none } : RfpVendorRow)]) = [] := by
          simp [hw]
        rw [hnew, List.append_nil, hfilter]
      · intro q hq
        simp only [List.mem_append, List.mem_singleton] at hq
        cases hq with
        | inl h => exact hqueue q h
        | inr h => right; rw [h]; exact hw
    | some mw =>
      have hmwMem : mw ∈ snap := List.mem_reverse.mp (List.mem_of_find?_eq_some hlook)
      have hmwPred := List.find?_some hlook
      have hmwVend : mw.vendor_id = w.id := by
        simp only [Bool.and_eq_true, beq_iff_eq] at hmwPred
        exact hmwPred.2
      cases hsentw : (mw.invite_status == "sent") with
      | true =>
        have hstep : inviteVendorStep rid tokenOf snap s w = s := by
          simp [inviteVendorStep, hvalid, hlook, hsentw]
        rw [hstep]
        exact ⟨hfilter, hqueue⟩
      | false =>
        have hstep : inviteVendorStep rid tokenOf snap s w =
            { mappings := s.mappings.map (fun x =>
                if x.id == mw.id
                then { (if mw.reply_token.isNone
                        then { mw with reply_token := some (tokenOf w.id) }
                        else mw) with
                       invite_status := "pending", last_email_id := none }
                else x),
              emailsQueued := s.emailsQueued ++ [⟨w.id, mw.id⟩],
              invitedCount := s.invitedCount + 1,
              nextMappingId := s.nextMappingId } := by
          simp [inviteVendorStep, hvalid, hlook, hsentw]
        rw [hstep]
        refine ⟨?_, ?_⟩
        · rw [filter_map_eq_filter]
          · exact hfilter
          · intro x hx hpx
            have hxsnap : x ∈ snap := by
              have hxf : x ∈ s.mappings.filter
                  (fun y => y.rfp_id == rid && y.vendor_id == v.id) :=
                List.mem_filter.mpr ⟨hx, hpx⟩
              rw [hfilter] at hxf
              exact (List.mem_filter.mp hxf).1
            have hxv : x.vendor_id = v.id := by
              simp only [Bool.and_eq_true, beq_iff_eq] at hpx
              exact hpx.2
            have hxne : x ≠ mw := by
              intro hcontra
              apply hw
              rw [← hmwVend, ← hcontra, hxv]
            have hidne : ¬(x.id = mw.id) := fun hcontra =>
              hxne (List.inj_on_of_nodup_map hsnap hxsnap hmwMem hcontra)
            simp [hidne]
          · intro x _ hpx
            have hm2v : ∀ y : RfpVendorRow,
                (({ y with invite_status := "pending", last_email_id := none } : RfpVendorRow)).vendor_id = y.vendor_id :=
              fun y => rfl
            by_cases hid : (x.id == mw.id) = true
            · simp only [hid, if_true]
              have hvv : (({ (if mw.reply_token.isNone
                      then { mw with reply_token := some (tokenOf w.id) }
                      else mw) with
                     invite_status := "pending",
                     last_email_id := none } : RfpVendorRow)).vendor_id = w.id := by
                rw [hm2v]
                split
                · exact hmwVend
                · exact hmwVend
              simp only [Bool.and_eq_false_iff]
              right
              rw [beq_eq_false_iff_ne, hvv]
              exact hw
            · simp only [hid, Bool.false_eq_true, if_false]
              exact hpx
        · intro q hq
          simp only [List.mem_append, List.mem_singleton] at hq
          cases hq with
          | inl h => exact hqueue q h
          | inr h => right; rw [h]; exact hw

/-- Fold form of the frame property over a vendor list in which every
element either is v itself (with a "sent" mapping) or has a different id. -/
theorem sendRfpInvites_fold_frame (rid : Nat) (tokenOf : Nat → String)
    (snap : List RfpVendorRow) (v : Vendor) (m : RfpVendorRow)
    (hsnap : (snap.map (fun x => x.id)).Nodup)
    (hm : lookupLast (fun x => x.rfp_id == rid && x.vendor_id == v.id) snap = some m)
    (hsent : m.invite_status = "sent") :
    ∀ (ws : List Vendor) (s base : InviteState),
      (∀ w ∈ ws, w = v ∨ w.id ≠ v.id) →
      (s.mappings.filter (fun x => x.rfp_id == rid && x.vendor_id == v.id)
        = snap.filter (fun x => x.rfp_id == rid && x.vendor_id == v.id)) →
      (∀ q ∈ s.emailsQueued, q ∈ base.emailsQueued ∨ q.vendor_id ≠ v.id) →
      (((ws.foldl (inviteVendorStep rid tokenOf snap) s).mappings.filter
          (fun x => x.rfp_id == rid && x.vendor_id == v.id))
        = snap.filter (fun x => x.rfp_id == rid && x.vendor_id == v.id)) ∧
      (∀ q ∈ (ws.foldl (inviteVendorStep rid tokenOf snap) s).emailsQueued,
        q ∈ base.emailsQueued ∨ q.vendor_id ≠ v.id) := by
  intro ws
  induction ws with
  | nil => intro s base _ hfilter hqueue; exact ⟨hfilter, hqueue⟩
  | cons w t ih =>
    intro s base hall hfilter hqueue
    cases hall w (List.mem_cons_self w t) with
    | inl hwv =>
      subst hwv
      rw [List.foldl_cons, inviteVendorStep_sent_identity rid tokenOf snap w m hm hsent s]
      exact ih s base (fun x hx => hall x (List.mem_cons_of_mem w hx)) hfilter hqueue
    | inr hwid =>
      rw [List.foldl_cons]
      obtain ⟨h1, h2⟩ := inviteVendorStep_other_frame rid tokenOf snap v hsnap
        w hwid s base hfilter hqueue
      exact ih _ base (fun x hx => hall x (List.mem_cons_of_mem w hx)) h1 h2

/-- C6: a vendor whose invitation mapping is already "sent" is skipped by
the send loop: the whole call behaves as if the vendor were absent (so it
is not counted in the invited count and nothing is sent for it), the
mapping row - status and last-delivered-message pointer included - is
unchanged, and no email for that vendor is queued. -/
theorem sendRfpInvites_sent_is_skipped (rid : Nat) (tokenOf : Nat → String)
    (vendors : List Vendor) (st : InviteState) (v : Vendor) (m : RfpVendorRow)
    (hv : v ∈ vendors)
    (hvnodup : (vendors.map (fun w => w.id)).Nodup)
    (hmnodup : (st.mappings.map (fun x => x.id)).Nodup)
    (hm : lookupLast (fun x => x.rfp_id == rid && x.vendor_id == v.id) st.mappings = some m)
    (hsent : m.invite_status = "sent") :
    (sendRfpInvites rid tokenOf vendors st
       = sendRfpInvites rid tokenOf (vendors.erase v) st) ∧
    (lookupLast (fun x => x.rfp_id == rid && x.vendor_id == v.id)
       (sendRfpInvites rid tokenOf vendors st).mappings = some m) ∧
    (∀ q ∈ (sendRfpInvites rid tokenOf vendors st).emailsQueued,
       q ∈ st.emailsQueued ∨ q.vendor_id ≠ v.id) := by
  have herase : sendRfpInvites rid tokenOf vendors st
      = sendRfpInvites rid tokenOf (vendors.erase v) st := by
    obtain ⟨l1, l2, hnotmem, hdecomp, herase⟩ := List.exists_erase_eq hv
    unfold sendRfpInvites
    rw [herase, hdecomp, List.foldl_append, List.foldl_append, List.foldl_cons,
      inviteVendorStep_sent_identity rid tokenOf st.mappings v m hm hsent]
  have hall : ∀ w ∈ vendors, w = v ∨ w.id ≠ v.id := by
    intro w hw
    by_cases hid : w.id = v.id
    · exact Or.inl (List.inj_on_of_nodup_map hvnodup hw hv hid)
    · exact Or.inr hid
  obtain ⟨hfilter, hqueue⟩ := sendRfpInvites_fold_frame rid tokenOf st.mappings v m
    hmnodup hm hsent vendors st st hall rfl (fun q hq => Or.inl hq)
  refine ⟨herase, ?_, hqueue⟩
  rw [lookupLast_eq_getLast_filter]
  show ((sendRfpInvites rid tokenOf vendors st).mappings.filter
      (fun x => x.rfp_id == rid && x.vendor_id == v.id)).getLast? = some m
  unfold sendRfpInvites
  rw [hfilter, ← lookupLast_eq_getLast_filter]
  exact hm

/-- Witness for C6: vendor 1's mapping is already "sent"; the call equals
the call without vendor 1, vendor 1's mapping row survives unchanged and no
email is queued for vendor 1. -/
theorem sendRfpInvites_sent_is_skipped_witness :
    (sendRfpInvites 1 (fun _ => "tokn")
        [{ id := 1, name := "A", email := some "a@x.com" },
         { id := 2, name := "B", email := some "b@x.com" }]
        { mappings := [{ id := 10, rfp_id := 1, vendor_id := 1, invite_status := "sent",
                         reply_token := some "t", last_email_id := some 99 }],
          emailsQueued := [], invitedCount := 0, nextMappingId := 11 }
      = sendRfpInvites 1 (fun _ => "tokn")
        ([{ id := 1, name := "A", email := some "a@x.com" },
          { id := 2, name := "B", email := some "b@x.com" }].erase
          { id := 1, name := "A", email := some "a@x.com" })
        { mappings := [{ id := 10, rfp_id := 1, vendor_id := 1, invite_status := "sent",
                         reply_token := some "t", last_email_id := some 99 }],
          emailsQueued := [], invitedCount := 0, nextMappingId := 11 }) ∧
    (lookupLast (fun x => x.rfp_id == 1 && x.vendor_id == 1)
       (sendRfpInvites 1 (fun _ => "tokn")
        [{ id := 1, name := "A", email := some "a@x.com" },
         { id := 2, name := "B", email := some "b@x.com" }]
        { mappings := [{ id := 10, rfp_id := 1, vendor_id := 1, invite_status := "sent",
                         reply_token := some "t", last_email_id := some 99 }],
          emailsQueued := [], invitedCount := 0, nextMappingId := 11 }).mappings
      = some { id := 10, rfp_id := 1, vendor_id := 1, invite_status := "sent",
               reply_token := some "t", last_email_id := some 99 }) ∧
    (∀ q ∈ (sendRfpInvites 1 (fun _ => "tokn")
        [{ id := 1, name := "A", email := some "a@x.com" },
         { id := 2, name := "B", email := some "b@x.com" }]
        { mappings := [{ id := 10, rfp_id := 1, vendor_id := 1, invite_status := "sent",
                         reply_token := some "t", last_email_id := some 99 }],
          emailsQueued := [], invitedCount := 0, nextMappingId := 11 }).emailsQueued,
       q ∈ ({ mappings := [{ id := 10, rfp_id := 1, vendor_id := 1, invite_status := "sent",
                             reply_token := some "t", last_email_id := some 99 }],
              emailsQueued := [], invitedCount := 0,
              nextMappingId := 11 } : InviteState).emailsQueued ∨ q.vendor_id ≠ 1) :=
  sendRfpInvites_sent_is_skipped 1 (fun _ => "tokn") _ _
    { id := 1, name := "A", email := some "a@x.com" }
    { id := 10, rfp_id := 1, vendor_id := 1, invite_status := "sent",
      reply_token := some "t", last_email_id := some 99 }
    (by decide) (by decide) (by decide) (by decide) rfl

-- ---------------------------------------------------------------------------
-- C1: transactional award with cascading rejection
-- ---------------------------------------------------------------------------

/-- C1: when the RFP exists and is not closed, the target proposal exists
and is not already awarded, proposal ids are unique and at most one
proposal exists for the (rfp, vendor) pair, then whatever datastore
operation (if any) fails, the award call either leaves the whole state
exactly as it was (rollback - so no state with the target awarded but a
sibling still pending is ever observable) or commits the complete outcome:
the target proposal awarded, every other proposal of the RFP rejected, the
RFP closed, and proposals of other RFPs untouched. -/
theorem awardProposalService_atomic (fault : Nat → Bool) (st : AwardState)
    (rid vid : Nat) (rfp : Rfp) (tgt : Proposal)
    (hids : (st.proposals.map (fun p => p.id)).Nodup)
    (huniq : ∀ p ∈ st.proposals, ∀ q ∈ st.proposals,
      p.rfp_id = rid → p.vendor_id = vid → q.rfp_id = rid → q.vendor_id = vid → p = q)
    (hrfp : st.rfps.find? (fun r => r.id == rid) = some rfp)
    (hopen : rfp.status ≠ "closed")
    (htgt : st.proposals.find? (fun p => p.rfp_id == rid && p.vendor_id == vid) = some tgt)
    (hna : tgt.status ≠ "awarded") :
    ((awardProposalService fault st rid vid).2 = st ∧
     (awardProposalService fault st rid vid).1 = AwardOutcome.dbFailure) ∨
    ((awardProposalService fault st rid vid).1 = AwardOutcome.success tgt.id ∧
     (∀ p ∈ (awardProposalService fault st rid vid).2.proposals,
        p.rfp_id = rid →
          (p.vendor_id = vid → p.status = "awarded") ∧
          (p.vendor_id ≠ vid → p.status = "rejected")) ∧
     (∀ r ∈ (awardProposalService fault st rid vid).2.rfps,
        r.id = rid → r.status = "closed") ∧
     (∀ p ∈ (awardProposalService fault st rid vid).2.proposals,
        p.rfp_id ≠ rid → p ∈ st.proposals)) := by
  have hco : (rfp.status == "closed") = false := beq_eq_false_iff_ne.mpr hopen
  have haw : (tgt.status == "awarded") = false := beq_eq_false_iff_ne.mpr hna
  cases hf0 : fault 0 with
  | true =>
    left
    have heq : awardProposalService fault st rid vid = (.dbFailure, st) := by
      unfold awardProposalService
      simp [hf0]
    rw [heq]
    exact ⟨rfl, rfl⟩
  | false =>
  cases hf1 : fault 1 with
  | true =>
    left
    have heq : awardProposalService fault st rid vid = (.dbFailure, st) := by
      unfold awardProposalService
      simp [hf0, hf1, hrfp, hco]
    rw [heq]
    exact ⟨rfl, rfl⟩
  | false =>
  cases hf2 : fault 2 with
  | true =>
    left
    have heq : awardProposalService fault st rid vid = (.dbFailure, st) := by
      unfold awardProposalService
      simp [hf0, hf1, hf2, hrfp, hco, htgt, haw]
    rw [heq]
    exact ⟨rfl, rfl⟩
  | false =>
  cases hf3 : fault 3 with
  | true =>
    left
    have heq : awardProposalService fault st rid vid = (.dbFailure, st) := by
      unfold awardProposalService
      simp [hf0, hf1, hf2, hf3, hrfp, hco, htgt, haw]
    rw [heq]
    exact ⟨rfl, rfl⟩
  | false =>
  cases hf4 : fault 4 with
  | true =>
    left
    have heq : awardProposalService fault st rid vid = (.dbFailure, st) := by
      unfold awardProposalService
      simp [hf0, hf1, hf2, hf3, hf4, hrfp, hco, htgt, haw]
    rw [heq]
    exact ⟨rfl, rfl⟩
  | false =>
  cases hf5 : fault 5 with
  | true =>
    left
    have heq : awardProposalService fault st rid vid = (.dbFailure, st) := by
      unfold awardProposalService
      simp [hf0, hf1, hf2, hf3, hf4, hf5, hrfp, hco, htgt, haw]
    rw [heq]
    exact ⟨rfl, rfl⟩
  | false =>
  cases hf6 : fault 6 with
  | true =>
    left
    have heq : awardProposalService fault st rid vid = (.dbFailure, st) := by
      unfold awardProposalService
      simp [hf0, hf1, hf2, hf3, hf4, hf5, hf6, hrfp, hco, htgt, haw]
    rw [heq]
    exact ⟨rfl, rfl⟩
  | false =>
  cases hf7 : fault 7 with
  | true =>
    left
    have heq : awardProposalService fault st rid vid = (.dbFailure, st) := by
      unfold awardProposalService
      simp [hf0, hf1, hf2, hf3, hf4, hf5, hf6, hf7, hrfp, hco, htgt, haw]
    rw [heq]
    exact ⟨rfl, rfl⟩
  | false =>
  right
  have htgtMem : tgt ∈ st.proposals := List.mem_of_find?_eq_some htgt
  have htgtPred := List.find?_some htgt
  have htgtRfp : tgt.rfp_id = rid := by
    simp only [Bool.and_eq_true, beq_iff_eq] at htgtPred
    exact htgtPred.1
  have htgtVid : tgt.vendor_id = vid := by
    simp only [Bool.and_eq_true, beq_iff_eq] at htgtPred
    exact htgtPred.2
  have injId : ∀ a ∈ st.proposals, ∀ b ∈ st.proposals, a.id = b.id → a = b :=
    fun a ha b hb h => List.inj_on_of_nodup_map hids ha hb h
  have hcontainsIff : ∀ i : Nat,
      (((st.proposals.filter (fun q =>
          q.rfp_id == rid && q.vendor_id != vid && q.status != "rejected")).map
          (fun q => q.id)).contains i = true) ↔
      ∃ q ∈ st.proposals,
        (q.rfp_id == rid && q.vendor_id != vid && q.status != "rejected") = true ∧
        q.id = i := by
    intro i
    constructor
    · intro h
      have hmem := List.elem_iff.mp h
      obtain ⟨q, hq, hqi⟩ := List.mem_map.mp hmem
      obtain ⟨hqmem, hqpred⟩ := List.mem_filter.mp hq
      exact ⟨q, hqmem, hqpred, hqi⟩
    · intro ⟨q, hqmem, hqpred, hqi⟩
      exact List.elem_iff.mpr
        (List.mem_map.mpr ⟨q, List.mem_filter.mpr ⟨hqmem, hqpred⟩, hqi⟩)
  have heq : awardProposalService fault st rid vid
      = (AwardOutcome.success tgt.id,
         { rfps := st.rfps.map (fun r =>
             if r.id == rid then { r with status := "closed" } else r),
           proposals := (st.proposals.map (fun p =>
               if p.id == tgt.id then { p with status := "awarded" } else p)).map (fun p =>
               if ((st.proposals.filter (fun q =>
                   q.rfp_id == rid && q.vendor_id != vid && q.status != "rejected")).map
                   (fun q => q.id)).contains p.id
               then { p with status := "rejected" } else p) }) := by
    unfold awardProposalService
    simp only [hf0, hf1, hf2, hf3, hf4, hf5, hf6, hf7, Bool.false_eq_true, if_false,
      hrfp, hco, htgt, haw]
  rw [heq]
  refine ⟨rfl, ?_, ?_, ?_⟩
  · intro p hp hprid
    rw [List.map_map] at hp
    obtain ⟨q, hqmem, hqeq⟩ := List.mem_map.mp hp
    by_cases hqvid : q.vendor_id = vid
    · have hqrid : q.rfp_id = rid := by
        have : p.rfp_id = q.rfp_id := by
          rw [← hqeq]
          simp only [Function.comp]
          split <;> (split <;> rfl)
        rw [← this, hprid]
      have hq_tgt : q = tgt := huniq q hqmem tgt htgtMem hqrid hqvid htgtRfp htgtVid
      subst hq_tgt
      have hstep1 : ((if q.id == q.id then { q with status := "awarded" } else q) : Proposal)
          = { q with status := "awarded" } := by
        simp
      have hnotRej : (((st.proposals.filter (fun x =>
          x.rfp_id == rid && x.vendor_id != vid && x.status != "rejected")).map
          (fun x => x.id)).contains q.id) = false := by
        cases hcontains : (((st.proposals.filter (fun x =>
            x.rfp_id == rid && x.vendor_id != vid && x.status != "rejected")).map
            (fun x => x.id)).contains q.id) with
        | false => rfl
        | true =>
          obtain ⟨x, hxmem, hxpred, hxid⟩ := (hcontainsIff q.id).mp hcontains
          have hxq : x = q := injId x hxmem q hqmem hxid
          subst hxq
          simp only [Bool.and_eq_true, bne_iff_ne] at hxpred
          exact absurd hqvid hxpred.1.2
      have hpval : p = { q with status := "awarded" } := by
        rw [← hqeq]
        simp only [Function.comp, hstep1]
        rw [if_neg]
        intro hcontra
        rw [show (({ q with status := "awarded" } : Proposal)).id = q.id from rfl] at hcontra
        rw [hnotRej] at hcontra
        exact Bool.false_ne_true hcontra
      constructor
      · intro _
        rw [hpval]
      · intro hcontra
        have : p.vendor_id = q.vendor_id := by rw [hpval]
        rw [this] at hcontra
        exact absurd hqvid hcontra
    · have hqid_ne : q.id ≠ tgt.id := by
        intro hcontra
        have := injId q hqmem tgt htgtMem hcontra
        rw [this] at hqvid
        exact hqvid htgtVid
      have hstep1 : ((if q.id == tgt.id then { q with status := "awarded" } else q) : Proposal)
          = q := by
        rw [if_neg]
        intro hcontra
        exact hqid_ne (by simpa using hcontra)
      have hqrid : q.rfp_id = rid := by
        have : p.rfp_id = q.rfp_id := by
          rw [← hqeq]
          simp only [Function.comp]
          split <;> (split <;> rfl)
        rw [← this, hprid]
      constructor
      · intro hcontra
        have : p.vendor_id = q.vendor_id := by
          rw [← hqeq]
          simp only [Function.comp]
          split <;> (split <;> rfl)
        rw [this] at hcontra
        exact absurd hcontra hqvid
      · intro _
        by_cases hrej : q.status = "rejected"
        · have hnc : (((st.proposals.filter (fun x =>
              x.rfp_id == rid && x.vendor_id != vid && x.status != "rejected")).map
              (fun x => x.id)).contains q.id) = false := by
            cases hcontains : (((st.proposals.filter (fun x =>
                x.rfp_id == rid && x.vendor_id != vid && x.status != "rejected")).map
                (fun x => x.id)).contains q.id) with
            | false => rfl
            | true =>
              obtain ⟨x, hxmem, hxpred, hxid⟩ := (hcontainsIff q.id).mp hcontains
              have hxq : x = q := injId x hxmem q hqmem hxid
              subst hxq
              simp only [Bool.and_eq_true, bne_iff_ne] at hxpred
              exact absurd hrej hxpred.2
          have hpval : p = q := by
            rw [← hqeq]
            simp only [Function.comp, hstep1]
            rw [if_neg]
            intro hcontra
            rw [hnc] at hcontra
            exact Bool.false_ne_true hcontra
          rw [hpval]
          exact hrej
        · have hqpred : (q.rfp_id == rid && q.vendor_id != vid && q.status != "rejected") = true := by
            simp only [Bool.and_eq_true, beq_iff_eq, bne_iff_ne]
            exact ⟨⟨hqrid, hqvid⟩, hrej⟩
          have hc : (((st.proposals.filter (fun x =>
              x.rfp_id == rid && x.vendor_id != vid && x.status != "rejected")).map
              (fun x => x.id)).contains q.id) = true :=
            (hcontainsIff q.id).mpr ⟨q, hqmem, hqpred, rfl⟩
          have hpval : p = { q with status := "rejected" } := by
            rw [← hqeq]
            simp only [Function.comp, hstep1]
            rw [if_pos]
            rw [show (q : Proposal).id = q.id from rfl]
            exact hc
          rw [hpval]
  · intro r hr hrid
    obtain ⟨r0, _, hr0eq⟩ := List.mem_map.mp hr
    by_cases hr0id : (r0.id == rid) = true
    · rw [← hr0eq, if_pos hr0id]
    · exfalso
      rw [← hr0eq, if_neg hr0id] at hrid
      exact hr0id (by simpa using hrid)
  · intro p hp hprid
    rw [List.map_map] at hp
    obtain ⟨q, hqmem, hqeq⟩ := List.mem_map.mp hp
    have hqrid : q.rfp_id ≠ rid := by
      have : p.rfp_id = q.rfp_id := by
        rw [← hqeq]
        simp only [Function.comp]
        split <;> (split <;> rfl)
      rw [this] at hprid
      exact hprid
    have hq_ne_tgt : q.id ≠ tgt.id := by
      intro hcontra
      have := injId q hqmem tgt htgtMem hcontra
      rw [this] at hqrid
      exact hqrid htgtRfp
    have hstep1 : ((if q.id == tgt.id then { q with status := "awarded" } else q) : Proposal)
        = q := by
      rw [if_neg]
      intro hcontra
      exact hq_ne_tgt (by simpa using hcontra)
    have hnc : (((st.proposals.filter (fun x =>
        x.rfp_id == rid && x.vendor_id != vid && x.status != "rejected")).map
        (fun x => x.id)).contains q.id) = false := by
      cases hcontains : (((st.proposals.filter (fun x =>
          x.rfp_id == rid && x.vendor_id != vid && x.status != "rejected")).map
          (fun x => x.id)).contains q.id) with
      | false => rfl
      | true =>
        obtain ⟨x, hxmem, hxpred, hxid⟩ := (hcontainsIff q.id).mp hcontains
        have hxq : x = q := injId x hxmem q hqmem hxid
        subst hxq
        simp only [Bool.and_eq_true, beq_iff_eq, bne_iff_ne] at hxpred
        exact absurd hxpred.1.1 hqrid
    have hpval : p = q := by
      rw [← hqeq]
      simp only [Function.comp, hstep1]
      rw [if_neg]
      intro hcontra
      rw [hnc] at hcontra
      exact Bool.false_ne_true hcontra
    rw [hpval]
    exact hqmem

/-- Witness for C1 at a concrete three-proposal state with no faults: the
target is awarded, the pending sibling rejected, the already-rejected
sibling left rejected, and the RFP closed. -/
theorem awardProposalService_atomic_witness :
    ((awardProposalService (fun _ => false) awardSampleState 1 1).2 = awardSampleState ∧
     (awardProposalService (fun _ => false) awardSampleState 1 1).1 = AwardOutcome.dbFailure) ∨
    ((awardProposalService (fun _ => false) awardSampleState 1 1).1 = AwardOutcome.success 1 ∧
     (∀ p ∈ (awardProposalService (fun _ => false) awardSampleState 1 1).2.proposals,
        p.rfp_id = 1 →
          (p.vendor_id = 1 → p.status = "awarded") ∧
          (p.vendor_id ≠ 1 → p.status = "rejected")) ∧
     (∀ r ∈ (awardProposalService (fun _ => false) awardSampleState 1 1).2.rfps,
        r.id = 1 → r.status = "closed") ∧
     (∀ p ∈ (awardProposalService (fun _ => false) awardSampleState 1 1).2.proposals,
        p.rfp_id ≠ 1 → p ∈ awardSampleState.proposals)) :=
  awardProposalService_atomic (fun _ => false) awardSampleState 1 1
    { id := 1, status := "evaluating" }
    { id := 1, rfp_id := 1, vendor_id := 1, status := "pending" }
    (by decide) (by decide) (by decide) (by decide) (by decide) (by decide)

-- ---------------------------------------------------------------------------
-- C5: the bounded-concurrency runner's counts
-- ---------------------------------------------------------------------------

/-- Every single worker turn preserves the runner invariant, whichever
worker the scheduler picks. -/
theorem runnerStep_preserves_inv {α : Type} (handler : α → Bool) (items : List α)
    (w : Nat) (s : RunnerState) (k : Nat)
    (hinv : runnerInv handler items w s) :
    runnerInv handler items w (runnerStep handler items s k) := by
  obtain ⟨hlen, hc, hf, hterm⟩ := hinv
  cases hget : s.active[k]? with
  | none =>
    have hstep : runnerStep handler items s k = s := by
      simp [runnerStep, hget]
    rw [hstep]
    exact ⟨hlen, hc, hf, hterm⟩
  | some b =>
    cases b with
    | false =>
      have hstep : runnerStep handler items s k = s := by
        simp [runnerStep, hget]
      rw [hstep]
      exact ⟨hlen, hc, hf, hterm⟩
    | true =>
      by_cases hpast : items.length ≤ s.index
      · have hstep : runnerStep handler items s k =
            { index := s.index + 1, completed := s.completed, failed := s.failed,
              active := s.active.set k false } := by
          simp [runnerStep, hget, hpast]
        rw [hstep]
        refine ⟨?_, ?_, ?_, ?_⟩
        · simp [List.length_set, hlen]
        · show s.completed = (items.take (s.index + 1)).countP handler
          rw [hc, List.take_of_length_le hpast,
            List.take_of_length_le (le_trans hpast (Nat.le_succ _))]
        · show s.failed = (items.take (s.index + 1)).countP (fun x => !(handler x))
          rw [hf, List.take_of_length_le hpast,
            List.take_of_length_le (le_trans hpast (Nat.le_succ _))]
        · intro _
          exact le_trans hpast (Nat.le_succ _)
      · have hlt : s.index < items.length := Nat.lt_of_not_le hpast
        cases hit : items[s.index]? with
        | none =>
          exfalso
          rw [List.getElem?_eq_getElem hlt] at hit
          exact Option.noConfusion hit
        | some item =>
          have htake : items.take (s.index + 1) = items.take s.index ++ [item] := by
            rw [List.take_succ, hit]
            rfl
          cases hh : handler item with
          | true =>
            have hstep : runnerStep handler items s k =
                { index := s.index + 1, completed := s.completed + 1,
                  failed := s.failed, active := s.active } := by
              simp [runnerStep, hget, hpast, hit, hh]
            rw [hstep]
            refine ⟨hlen, ?_, ?_, ?_⟩
            · show s.completed + 1 = (items.take (s.index + 1)).countP handler
              rw [htake, List.countP_append, hc]
              simp [List.countP_cons, hh]
            · show s.failed = (items.take (s.index + 1)).countP (fun x => !(handler x))
              rw [htake, List.countP_append, hf]
              simp [List.countP_cons, hh]
            · intro hmem
              exact absurd (hterm hmem) hpast
          | false =>
            have hstep : runnerStep handler items s k =
                { index := s.index + 1, completed := s.completed,
                  failed := s.failed + 1, active := s.active } := by
              simp [runnerStep, hget, hpast, hit, hh]
            rw [hstep]
            refine ⟨hlen, ?_, ?_, ?_⟩
            · show s.completed = (items.take (s.index + 1)).countP handler
              rw [htake, List.countP_append, hc]
              simp [List.countP_cons, hh]
            · show s.failed + 1 = (items.take (s.index + 1)).countP (fun x => !(handler x))
              rw [htake, List.countP_append, hf]
              simp [List.countP_cons, hh]
            · intro hmem
              exact absurd (hterm hmem) hpast

/-- The invariant survives any whole schedule. -/
theorem runnerRun_preserves_inv {α : Type} (handler : α → Bool) (items : List α)
    (w : Nat) (schedule : List Nat) :
    ∀ s : RunnerState, runnerInv handler items w s →
      runnerInv handler items w (runnerRun handler items s schedule) := by
  induction schedule with
  | nil => intro s hs; exact hs
  | cons k t ih =>
    intro s hs
    exact ih (runnerStep handler items s k)
      (runnerStep_preserves_inv handler items w s k hs)

/-- C5: whenever the runner returns (its Promise.all resolved under some
interleaving) with at least one worker configured, the reported triple is
exactly { completed = number of items whose handler succeeds, failed =
number of items whose handler throws, total = number of items }: the
handler ran once per item and one item's failure neither aborted the other
workers nor the overall call. -/
theorem processConcurrency_counts {α : Type} (items : List α) (concurrency : Nat)
    (handler : α → Bool) (schedule : List Nat) (r : Nat × Nat × Nat)
    (hconc : 1 ≤ concurrency)
    (hdone : processConcurrency items concurrency handler schedule = some r) :
    r = (items.countP handler,
         items.countP (fun x => !(handler x)),
         items.length) := by
  have hpc : processConcurrency items concurrency handler schedule
      = (if (runnerRun handler items
            ⟨0, 0, 0, List.replicate (min concurrency items.length) true⟩ schedule).active.all
            (fun b => b == false)
         then some ((runnerRun handler items
            ⟨0, 0, 0, List.replicate (min concurrency items.length) true⟩ schedule).completed,
            (runnerRun handler items
            ⟨0, 0, 0, List.replicate (min concurrency items.length) true⟩ schedule).failed,
            items.length)
         else none) := rfl
  rw [hpc] at hdone
  have hinv0 : runnerInv handler items (min concurrency items.length)
      ⟨0, 0, 0, List.replicate (min concurrency items.length) true⟩ := by
    refine ⟨List.length_replicate _ _, by simp, by simp, ?_⟩
    intro hmem
    exact absurd (List.eq_of_mem_replicate hmem) Bool.false_ne_true
  obtain ⟨hlen, hc, hf, hterm⟩ := runnerRun_preserves_inv handler items
    (min concurrency items.length) schedule _ hinv0
  cases hall : (runnerRun handler items
      ⟨0, 0, 0, List.replicate (min concurrency items.length) true⟩ schedule).active.all
      (fun b => b == false) with
  | false =>
    rw [hall] at hdone
    exact absurd hdone (by simp)
  | true =>
    rw [hall] at hdone
    rw [if_pos rfl] at hdone
    have hr := Option.some.inj hdone
    have htake : items.take (runnerRun handler items
        ⟨0, 0, 0, List.replicate (min concurrency items.length) true⟩ schedule).index
        = items := by
      by_cases hlen0 : items.length = 0
      · have hnil : items = [] := List.eq_nil_of_length_eq_zero hlen0
        rw [hnil]
        simp
      · have hlenpos : 1 ≤ items.length := Nat.pos_of_ne_zero hlen0
        have hwpos : 1 ≤ min concurrency items.length := le_min hconc hlenpos
        have hfalse : false ∈ (runnerRun handler items
            ⟨0, 0, 0, List.replicate (min concurrency items.length) true⟩ schedule).active := by
          cases hactive : (runnerRun handler items
              ⟨0, 0, 0, List.replicate (min concurrency items.length) true⟩ schedule).active with
          | nil =>
            exfalso
            rw [hactive] at hlen
            rw [← hlen] at hwpos
            exact Nat.not_succ_le_zero 0 hwpos
          | cons b bs =>
            have hb : (b == false) = true :=
              List.all_eq_true.mp (by rw [← hactive]; exact hall) b
                (List.mem_cons_self b bs)
            have hbf : b = false := by simpa using hb
            rw [hbf]
            exact List.mem_cons_self false bs
        exact List.take_of_length_le (hterm hfalse)
    rw [← hr, hc, hf, htake]


/-- Witness for C5: 12 items at concurrency 5 under a concrete round-robin
schedule, where only item number 7 (index 6) fails, reports completed = 11,
failed = 1, total = 12. -/
theorem processConcurrency_counts_witness :
    ((11, 1, 12) : Nat × Nat × Nat)
      = ((List.range 12).countP (fun i => i != 6),
         (List.range 12).countP (fun i => !(i != 6)),
         (List.range 12).length) :=
  processConcurrency_counts (List.range 12) 5 (fun i => i != 6)
    [0, 1, 2, 3, 4, 0, 1, 2, 3, 4, 0, 1, 2, 3, 4, 0, 1] (11, 1, 12)
    (by decide) (by decide)

-- ---------------------------------------------------------------------------
-- C4: the reply-address router round trip
-- ---------------------------------------------------------------------------

/-- Every token the generator emits has the requested length and only
alphanumeric characters. -/
theorem generateReplyTokenAux_spec (len : Nat) :
    ∀ (es : List Nat) (acc t : List Char),
      acc.length ≤ len → (∀ c ∈ acc, isAllowedTokenChar c = true) →
      generateReplyTokenAux len es acc = some t →
      t.length = len ∧ ∀ c ∈ t, isAllowedTokenChar c = true := by
  intro es
  induction es with
  | nil =>
    intro acc t hle hall h
    unfold generateReplyTokenAux at h
    by_cases hfin : len ≤ acc.length
    · rw [if_pos hfin] at h
      have ht := Option.some.inj h
      subst ht
      exact ⟨le_antisymm hle hfin, hall⟩
    · rw [if_neg hfin] at h
      exact Option.noConfusion h
  | cons e rest ih =>
    intro acc t hle hall h
    unfold generateReplyTokenAux at h
    by_cases hfin : len ≤ acc.length
    · rw [if_pos hfin] at h
      have ht := Option.some.inj h
      subst ht
      exact ⟨le_antisymm hle hfin, hall⟩
    · rw [if_neg hfin] at h
      have hlt : acc.length < len := Nat.lt_of_not_le hfin
      by_cases hc : isAllowedTokenChar (Char.ofNat (e % 94 + 33)) = true
      · rw [if_pos hc] at h
        refine ih (acc ++ [Char.ofNat (e % 94 + 33)]) t ?_ ?_ h
        · rw [List.length_append, List.length_singleton]
          exact hlt
        · intro c hcm
          rcases List.mem_append.mp hcm with h1 | h2
          · exact hall c h1
          · rw [List.mem_singleton] at h2
            subst h2
            exact hc
      · rw [if_neg hc] at h
        exact ih acc t hle hall h

/-- Specialisation to the default 12-character call. -/
theorem generateReplyToken_spec (entropy : List Nat) (t : List Char)
    (h : generateReplyToken entropy 12 = some t) :
    t.length = 12 ∧ ∀ c ∈ t, isAllowedTokenChar c = true :=
  generateReplyTokenAux_spec 12 entropy [] t (by simp) (by simp) h

/-- Splitting a separator-free list yields the list itself. -/
theorem splitOnChar_not_mem (sep : Char) (l : List Char) (h : sep ∉ l) :
    splitOnChar sep l = [l] := by
  induction l with
  | nil => rfl
  | cons c t ih =>
    have hcs : ¬(c = sep) := fun hc => h (hc ▸ List.mem_cons_self c t)
    have ht : sep ∉ t := fun hm => h (List.mem_cons_of_mem c hm)
    simp [splitOnChar, hcs, ih ht]

/-- Splitting around the first separator. -/
theorem splitOnChar_append (sep : Char) (l1 l2 : List Char) (h : sep ∉ l1) :
    splitOnChar sep (l1 ++ sep :: l2) = l1 :: splitOnChar sep l2 := by
  induction l1 with
  | nil => simp [splitOnChar]
  | cons c t ih =>
    have hcs : ¬(c = sep) := fun hc => h (hc ▸ List.mem_cons_self c t)
    have ht : sep ∉ t := fun hm => h (List.mem_cons_of_mem c hm)
    simp [splitOnChar, hcs, ih ht]

/-- takeWhile over a block that satisfies the predicate followed by a
stopper. -/
theorem takeWhile_append_stop (p : Char → Bool) (xs : List Char) (y : Char)
    (ys : List Char) (hall : ∀ x ∈ xs, p x = true) (hy : p y = false) :
    (xs ++ y :: ys).takeWhile p = xs := by
  induction xs with
  | nil => simp [List.takeWhile_cons, hy]
  | cons x t ih =>
    have hx := hall x (List.mem_cons_self x t)
    simp [List.takeWhile_cons, hx,
      ih (fun z hz => hall z (List.mem_cons_of_mem x hz))]

/-- The regex scan on an encoded address whose local part contains no
marker occurrence captures exactly the token. -/
theorem findTokenMatch_encoded (tok domain : List Char)
    (htok : tok ≠ []) (hat : ∀ c ∈ tok, ¬(c = '@')) :
    ∀ localPart : List Char, containsMarker localPart = false →
      findTokenMatch (localPart ++ rfpMarker ++ tok ++ '@' :: domain) = some tok := by
  have htw : ((tok ++ '@' :: domain).takeWhile (fun ch => ch != '@')) = tok :=
    takeWhile_append_stop _ tok '@' domain
      (fun x hx => by
        rw [bne_iff_ne]
        exact hat x hx)
      (by simp)
  have htokE : tok.isEmpty = false := by
    cases tok with
    | nil => exact absurd rfl htok
    | cons a t => rfl
  have hbase : findTokenMatch ('+' :: 'r' :: 'f' :: 'p' :: '_' :: (tok ++ '@' :: domain))
      = some tok := by
    have key : findTokenMatch ('+' :: 'r' :: 'f' :: 'p' :: '_' :: (tok ++ '@' :: domain))
        = (if ((tok ++ '@' :: domain).takeWhile (fun ch => ch != '@')).isEmpty
           then findTokenMatch ('r' :: 'f' :: 'p' :: '_' :: (tok ++ '@' :: domain))
           else if ((tok ++ '@' :: domain).drop
               ((tok ++ '@' :: domain).takeWhile (fun ch => ch != '@')).length).isEmpty
           then findTokenMatch ('r' :: 'f' :: 'p' :: '_' :: (tok ++ '@' :: domain))
           else some ((tok ++ '@' :: domain).takeWhile (fun ch => ch != '@'))) := rfl
    rw [key, htw, htokE]
    simp only [Bool.false_eq_true, if_false]
    rw [List.drop_left]
    rfl
  intro localPart
  induction localPart with
  | nil => intro _; exact hbase
  | cons c cs ih =>
    intro hm
    have hm1 : markerHere (c :: cs) = false := by
      unfold containsMarker at hm
      rcases Bool.or_eq_false_iff.mp hm with ⟨h1, _⟩
      exact h1
    have hm2 : containsMarker cs = false := by
      unfold containsMarker at hm
      rcases Bool.or_eq_false_iff.mp hm with ⟨_, h2⟩
      exact h2
    have hmfalse : markerHere ((c :: cs) ++ rfpMarker ++ tok ++ '@' :: domain) = false := by
      cases cs with
      | nil =>
        have h2 : ('+'.toLower == 'r') = false := by decide
        simp [markerHere, rfpMarker, h2]
      | cons x cs1 =>
        cases cs1 with
        | nil =>
          have h2 : ('+'.toLower == 'f') = false := by decide
          simp [markerHere, rfpMarker, h2]
        | cons y cs2 =>
          cases cs2 with
          | nil =>
            have h2 : ('+'.toLower == 'p') = false := by decide
            simp [markerHere, rfpMarker, h2]
          | cons z cs3 =>
            cases cs3 with
            | nil =>
              have h2 : ('+' == '_') = false := by decide
              simp [markerHere, rfpMarker, h2]
            | cons w cs4 =>
              exact hm1
    have key2 : findTokenMatch ((c :: cs) ++ rfpMarker ++ tok ++ '@' :: domain)
        = findTokenMatch (cs ++ rfpMarker ++ tok ++ '@' :: domain) := by
      show findTokenMatch (c :: (cs ++ rfpMarker ++ tok ++ '@' :: domain))
          = findTokenMatch (cs ++ rfpMarker ++ tok ++ '@' :: domain)
      rw [show findTokenMatch (c :: (cs ++ rfpMarker ++ tok ++ '@' :: domain))
            = (if markerHere (c :: (cs ++ rfpMarker ++ tok ++ '@' :: domain))
               then (if (((cs ++ rfpMarker ++ tok ++ '@' :: domain).drop 4).takeWhile
                       (fun ch => ch != '@')).isEmpty
                     then findTokenMatch (cs ++ rfpMarker ++ tok ++ '@' :: domain)
                     else if (((cs ++ rfpMarker ++ tok ++ '@' :: domain).drop 4).drop
                         (((cs ++ rfpMarker ++ tok ++ '@' :: domain).drop 4).takeWhile
                           (fun ch => ch != '@')).length).isEmpty
                     then findTokenMatch (cs ++ rfpMarker ++ tok ++ '@' :: domain)
                     else some (((cs ++ rfpMarker ++ tok ++ '@' :: domain).drop 4).takeWhile
                       (fun ch => ch != '@')))
               else findTokenMatch (cs ++ rfpMarker ++ tok ++ '@' :: domain)) from rfl]
      rw [show markerHere (c :: (cs ++ rfpMarker ++ tok ++ '@' :: domain))
            = markerHere ((c :: cs) ++ rfpMarker ++ tok ++ '@' :: domain) from rfl]
      rw [hmfalse]
      simp only [Bool.false_eq_true, if_false]
    rw [key2]
    exact ih hm2

/-- C4 amended: for every generated 12-character alphanumeric token and
every base address localPart@domain with non-empty, @-free local part and
domain whose LOCAL PART DOES NOT ITSELF CONTAIN the (case-insensitive)
marker "+rfp_", decoding the encoded reply address returns exactly the
original token, case preserved. -/
theorem decode_encode_roundtrip (localPart domain tok : List Char)
    (entropy : List Nat)
    (hl : localPart ≠ []) (hd : domain ≠ [])
    (hla : '@' ∉ localPart) (hda : '@' ∉ domain)
    (hm : containsMarker localPart = false)
    (hgen : generateReplyToken entropy 12 = some tok) :
    (buildRfpReplyTo (localPart ++ '@' :: domain) tok).bind parseRfpPlusAddress
      = some tok := by
  obtain ⟨hlen, hallow⟩ := generateReplyToken_spec entropy tok hgen
  have htokne : tok ≠ [] := by
    intro h
    rw [h] at hlen
    exact absurd hlen (by decide)
  have hat : ∀ c ∈ tok, ¬(c = '@') := by
    intro c hc heq
    have hx := hallow c hc
    rw [heq] at hx
    exact absurd hx (by decide)
  have htokE : tok.isEmpty = false := by
    cases tok with
    | nil => exact absurd rfl htokne
    | cons a t => rfl
  have hbaseE : (localPart ++ '@' :: domain).isEmpty = false := by
    cases localPart <;> rfl
  have hlE : localPart.isEmpty = false := by
    cases localPart with
    | nil => exact absurd rfl hl
    | cons a t => rfl
  have hdE : domain.isEmpty = false := by
    cases domain with
    | nil => exact absurd rfl hd
    | cons a t => rfl
  have hsplit : splitOnChar '@' (localPart ++ '@' :: domain) = [localPart, domain] := by
    rw [splitOnChar_append '@' localPart domain hla, splitOnChar_not_mem '@' domain hda]
  have hbuild : buildRfpReplyTo (localPart ++ '@' :: domain) tok
      = some (localPart ++ rfpMarker ++ tok ++ '@' :: domain) := by
    unfold buildRfpReplyTo
    simp only [hbaseE, htokE, Bool.false_eq_true, if_false, hsplit, hlE, hdE]
  rw [hbuild]
  show parseRfpPlusAddress (localPart ++ rfpMarker ++ tok ++ '@' :: domain) = some tok
  unfold parseRfpPlusAddress
  have haddrE : (localPart ++ rfpMarker ++ tok ++ '@' :: domain).isEmpty = false := by
    cases localPart <;> rfl
  simp only [haddrE, Bool.false_eq_true, if_false]
  exact findTokenMatch_encoded tok domain htokne hat localPart hm

/-- Witness for the amended C4: base user@gmail.com with a generated token. -/
theorem decode_encode_roundtrip_witness :
    (buildRfpReplyTo ("user".data ++ '@' :: "gmail.com".data)
        ("ABCDEFGH1234".data)).bind parseRfpPlusAddress
      = some ("ABCDEFGH1234".data) :=
  decode_encode_roundtrip "user".data "gmail.com".data "ABCDEFGH1234".data
    [32, 33, 34, 35, 36, 37, 38, 39, 16, 17, 18, 19]
    (by decide) (by decide) (by decide) (by decide) (by decide) (by decide)

/-- Counterexample to C4 as stated: for the well-formed base address
user+rfp_abc@gmail.com (one @, non-empty local part and domain) and the
generator-produced token ABCDEFGH1234, the decode of the encode returns
abc+rfp_ABCDEFGH1234 - the greedy case-insensitive regex anchors on the
FIRST "+rfp_", which lies inside the local part - so the round trip does
not return the original token. -/
theorem decode_encode_counterexample :
    generateReplyToken [32, 33, 34, 35, 36, 37, 38, 39, 16, 17, 18, 19] 12
      = some ("ABCDEFGH1234".data) ∧
    (buildRfpReplyTo ("user+rfp_abc@gmail.com".data) ("ABCDEFGH1234".data)).bind
        parseRfpPlusAddress
      = some ("abc+rfp_ABCDEFGH1234".data) ∧
    some ("abc+rfp_ABCDEFGH1234".data) ≠ some ("ABCDEFGH1234".data) := by
  exact ⟨by decide, by decide, by decide⟩

end AutoRfp
